import Mathlib

/-!
# Shallow embedding of the PO-assignment workflow core

This file embeds, in Lean, the assignment approval state machine and the
PO-line conflict-detection / batch-grouping logic of the repository:

* `app/models/assignment.py`   — the `AssignmentStatus` enumeration and the
  `Assignment` record (with its `unique=True` constraint on `internal_po_id`);
* `app/schemas/assignment.py`  — the pydantic input validation
  (`BulkAssignmentCreate` with its uniqueness validator, `AssignmentCreate`,
  `AssignmentUpdate`, `AssignmentReject` with `min_length=1`);
* `app/services/assignment_service.py` — `AssignmentService` with
  `bulk_create_assignments`, `create_assignment`, `update_assignment`,
  `submit_for_approval`, `approve_level1`, `approve_level2`,
  `reject_assignment`, and the helpers `_group_lines_by_po_number`,
  `_check_lines_not_assigned`, `_generate_internal_po_id`;
* `app/database.py` — the session discipline that matters for behaviour:
  `SessionLocal = sessionmaker(autocommit=False, autoflush=False, ...)`.
  Because `autoflush=False`, a query issued while inserts are pending in the
  session does **not** see those pending inserts; they become visible (and the
  unique constraint is checked) only at `commit()`.

Modelling conventions:
* uuids (user ids, assignment primary keys) are `Nat`;
* timestamps (`datetime.now(timezone.utc)`) are an explicit `now : Nat`
  parameter; the date string `strftime("%Y%m%d")` is an explicit `dateStr`;
* `HTTPException` outcomes are a `ServiceError` inductive: 404 "not found" →
  `notFound`, 403 → `forbidden`, 400 status-guard → `invalidState`, the 400
  already-assigned error (whose detail names the PO number, the overlapping
  line numbers and the conflicting `internal_po_id`) → `conflict` carrying
  exactly those three data, pydantic request validation → `validation`, a
  database constraint violation at commit → `integrity`;
* Python / SQL string comparison (`ORDER BY internal_po_id DESC`, `LIKE
  'prefix%'`, `int(s)`, `str.split`) is modelled by explicit executable
  functions over the character list of a `String`, defined below.

`UserRole` is the closed set of role constants the service compares against
(`UserRole.SBC`, `UserRole.PD`, `UserRole.ADMIN`, and `PROJECT_MANAGER` for
creators); roles are resolved at the identity boundary as a tagged variant.
-/

deriving instance DecidableEq for Except

namespace POAssign

/-! ## String model (Python / SQL string primitives) -/

/-- Lexicographic comparison of character lists by code point, as Python
string `<` and a byte-order SQL collation compare strings. -/
def listCharLt : List Char → List Char → Bool
  | [], [] => false
  | [], _ :: _ => true
  | _ :: _, [] => false
  | a :: as, b :: bs =>
    if a.toNat < b.toNat then true
    else if b.toNat < a.toNat then false
    else listCharLt as bs

/-- String `<` by code points (Python comparison, used by `ORDER BY ... DESC`). -/
def strLt (a b : String) : Bool := listCharLt a.data b.data

/-- List-level test that `p` is an initial segment of `s`. -/
def listStartsWith : List Char → List Char → Bool
  | [], _ => true
  | _ :: _, [] => false
  | a :: as, b :: bs => a = b && listStartsWith as bs

/-- `LIKE 'p%'`: `s` starts with `p`. -/
def strStartsWith (p s : String) : Bool := listStartsWith p.data s.data

/-- The decimal digit character for `d` (meaningful for `d ≤ 9`). -/
def digitChar (d : Nat) : Char := Char.ofNat (48 + d)

/-- Is `c` a decimal digit? -/
def isDigit (c : Char) : Bool := 48 ≤ c.toNat && c.toNat ≤ 57

/-- Numeric value of a digit string (radix-10 fold). -/
def digitsToNat (cs : List Char) : Nat := cs.foldl (fun n c => 10 * n + (c.toNat - 48)) 0

/-- Python `int(s)` on a non-negative decimal literal: defined exactly when
`s` is a nonempty all-digit string. -/
def strToNatM (s : String) : Option Nat :=
  if !s.data.isEmpty && s.data.all isDigit then some (digitsToNat s.data) else none

/-- The suffix of `s` after its last `'-'` (the whole of `s` if none):
Python `s.split("-")[-1]`. -/
def lastDashSuffix (s : String) : String :=
  String.mk ((s.data.reverse.takeWhile (fun c => c ≠ '-')).reverse)

/-- Zero-padded decimal of minimum width 3: Python `f"{n:03d}"` for `n ≥ 0`. -/
def pad3 (n : Nat) : String :=
  if n < 1000 then
    String.mk [digitChar (n / 100), digitChar (n / 10 % 10), digitChar (n % 10)]
  else Nat.repr n

/-! ## Data model (`app/models/assignment.py`, `app/models/auth.py`) -/

/-- `AssignmentStatus` enumeration (models/assignment.py). -/
inductive AssignmentStatus where
  | DRAFT
  | PENDING_PD_APPROVAL
  | PENDING_ADMIN_APPROVAL
  | APPROVED
  | REJECTED
  | CANCELLED
deriving DecidableEq, Repr

/-- The `.value` string of a status member. -/
def AssignmentStatus.value : AssignmentStatus → String
  | .DRAFT => "DRAFT"
  | .PENDING_PD_APPROVAL => "PENDING_PD_APPROVAL"
  | .PENDING_ADMIN_APPROVAL => "PENDING_ADMIN_APPROVAL"
  | .APPROVED => "APPROVED"
  | .REJECTED => "REJECTED"
  | .CANCELLED => "CANCELLED"

/-- Role constants the service compares `InternalUser.role` against. -/
inductive UserRole where
  | ADMIN
  | PD
  | PROJECT_MANAGER
  | SBC
deriving DecidableEq, Repr

/-- The identity record fields the assignment service reads. -/
structure InternalUser where
  id : Nat
  role : UserRole
  full_name : String := ""
deriving DecidableEq, Repr

/-- The `Assignment` ORM record (models/assignment.py); `pk` is the uuid
primary key `id`, abstracted to `Nat`. -/
structure Assignment where
  pk : Nat
  internal_po_id : String
  created_by_pm_id : Nat
  assigned_to_sbc_id : Nat
  pd_approved_by_id : Option Nat := none
  admin_approved_by_id : Option Nat := none
  rejected_by_id : Option Nat := none
  external_po_number : String
  external_po_line_numbers : List String
  status : AssignmentStatus
  assignment_notes : Option String := none
  pd_remarks : Option String := none
  admin_remarks : Option String := none
  rejection_reason : Option String := none
  submitted_at : Option Nat := none
  pd_approved_at : Option Nat := none
  admin_approved_at : Option Nat := none
  rejected_at : Option Nat := none
deriving DecidableEq, Repr

/-- The committed database state: the `internal_users` and `assignments`
tables, plus a fresh-primary-key counter standing for uuid generation. -/
structure DB where
  users : List InternalUser
  assignments : List Assignment
  nextPk : Nat := 0
deriving DecidableEq, Repr

/-- Typed outcome of a failed operation (see the module docstring for the
correspondence to `HTTPException` status codes and pydantic errors). -/
inductive ServiceError where
  | notFound (detail : String)
  | forbidden (detail : String)
  | invalidState (detail : String)
  | conflict (po_number : String) (overlap : List String) (existing_internal_po_id : String)
  | validation (detail : String)
  | integrity (detail : String)
deriving DecidableEq, Repr

/-- `db.query(InternalUser).filter(InternalUser.id == uid).first()`. -/
def findUser (db : DB) (uid : Nat) : Option InternalUser :=
  db.users.find? (fun u => u.id == uid)

/-- `db.query(InternalUser).filter(InternalUser.id == uid,
InternalUser.role == UserRole.SBC).first()`. -/
def findSbc (db : DB) (uid : Nat) : Option InternalUser :=
  db.users.find? (fun u => u.id == uid && u.role == UserRole.SBC)

/-- `get_assignment_by_id`: first assignment with primary key `aid`. -/
def get_assignment_by_id (db : DB) (aid : Nat) : Option Assignment :=
  db.assignments.find? (fun a => a.pk == aid)

/-- The statuses `_check_lines_not_assigned` treats as blocking (its
`status.in_` list): every non-terminal, non-rejected status. -/
def nonTerminalStatus (s : AssignmentStatus) : Bool :=
  s == .DRAFT || s == .PENDING_PD_APPROVAL || s == .PENDING_ADMIN_APPROVAL || s == .APPROVED

/-- UPDATE of one row: replace the assignment whose `pk` equals `a.pk`. -/
def setAssignment (db : DB) (a : Assignment) : DB :=
  { db with assignments := db.assignments.map (fun b => if b.pk == a.pk then a else b) }

/-- INSERT of pending rows at `commit()`: the `unique=True` constraint on
`internal_po_id` makes the transaction fail (nothing persisted) if the ids
of the committed and pending rows are not pairwise distinct. -/
def commitInserts (db : DB) (pending : List Assignment) : Except ServiceError DB :=
  if ((db.assignments ++ pending).map (fun a => a.internal_po_id)).Nodup then
    .ok { db with assignments := db.assignments ++ pending }
  else
    .error (.integrity "duplicate key value violates unique constraint on internal_po_id")

/-! ## Line grouping (`AssignmentService._group_lines_by_po_number`) -/

/-- One step of `defaultdict(list)` insertion: append `ln` to the group of
`po`, creating the group at the end if absent (Python dicts keep keys in
first-insertion order and lists keep append order). -/
def insertLine (acc : List (String × List String)) (po ln : String) :
    List (String × List String) :=
  match acc with
  | [] => [(po, [ln])]
  | (k, ls) :: rest =>
    if k = po then (k, ls ++ [ln]) :: rest else (k, ls) :: insertLine rest po ln

/-- `_group_lines_by_po_number`: group the batch of `(po_number, po_line)`
selections by PO number. -/
def group_lines_by_po_number (po_lines : List (String × String)) :
    List (String × List String) :=
  po_lines.foldl (fun acc p => insertLine acc p.1 p.2) []

/-! ## Conflict check (`AssignmentService._check_lines_not_assigned`) -/

/-- The inner loop over the existing non-terminal assignments of one PO:
the first assignment whose line set intersects `lines` yields the overlap
(the intersection, as the sublist of `lines` present in the assignment)
and its `internal_po_id`. -/
def findConflict (existing : List Assignment) (lines : List String) :
    Option (List String × String) :=
  match existing with
  | [] => none
  | a :: rest =>
    let ov := lines.filter (fun l => a.external_po_line_numbers.contains l)
    if ov.isEmpty then findConflict rest lines else some (ov, a.internal_po_id)

/-- `_check_lines_not_assigned`: for each group, query the assignments on
that PO number whose status is in the blocking list and fail on the first
overlap found, naming the PO number, the overlapping lines and the
conflicting assignment's internal id. -/
def check_lines_not_assigned (assignments : List Assignment) :
    List (String × List String) → Except ServiceError Unit
  | [] => .ok ()
  | (po, lines) :: rest =>
    let existing := assignments.filter
      (fun a => a.external_po_number == po && nonTerminalStatus a.status)
    match findConflict existing lines with
    | some (ov, eid) => .error (.conflict po ov eid)
    | none => check_lines_not_assigned assignments rest

/-! ## Internal id generation (`AssignmentService._generate_internal_po_id`) -/

/-- The id-generation core over the bare list of existing ids: filter by the
`PO-SIB-<date>-` LIKE pattern, take the greatest id in string order
(`ORDER BY internal_po_id DESC ... first()`), parse the digits after the
last dash (`int(id.split("-")[-1])`), add one, zero-pad to 3 digits. -/
def generate_internal_id (existingIds : List String) (dateStr : String) : String :=
  let pfx := "PO-SIB-" ++ dateStr ++ "-"
  let todayIds := existingIds.filter (fun s => strStartsWith pfx s)
  match todayIds with
  | [] => pfx ++ pad3 1
  | s :: rest =>
    let best := rest.foldl (fun m t => if strLt m t then t else m) s
    pfx ++ pad3 ((strToNatM (lastDashSuffix best)).getD 0 + 1)

/-- `_generate_internal_po_id` reads the committed `assignments` table only:
with `autoflush=False` (app/database.py) rows added to the session but not
yet committed are invisible to this query. -/
def generate_internal_po_id (assignments : List Assignment) (dateStr : String) : String :=
  generate_internal_id (assignments.map (fun a => a.internal_po_id)) dateStr

/-! ## Request schemas and their pydantic validation (`app/schemas/assignment.py`) -/

/-- `POLineSelection` is the pair `(po_number, po_line)`. -/
abbrev POLineSelection := String × String

/-- `BulkAssignmentCreate` request body. -/
structure BulkAssignmentCreate where
  po_lines : List POLineSelection
  assigned_to_sbc_id : Nat
  assignment_notes : Option String := none
deriving DecidableEq, Repr

/-- `BulkAssignmentCreate` validation: `po_lines` nonempty (`min_length=1`),
no duplicate `(po_number, po_line)` pair (`validate_po_lines_unique`),
notes at most 5000 characters. -/
def validateBulkCreate (b : BulkAssignmentCreate) : Except ServiceError Unit :=
  if b.po_lines.isEmpty then .error (.validation "po_lines must contain at least 1 item")
  else if !b.po_lines.Nodup then .error (.validation "Duplicate PO line")
  else if (b.assignment_notes.getD "").length > 5000 then
    .error (.validation "assignment_notes too long")
  else .ok ()

/-- `AssignmentCreate` request body (single manual creation). -/
structure AssignmentCreate where
  external_po_number : String
  external_po_line_numbers : List String
  assigned_to_sbc_id : Nat
  assignment_notes : Option String := none
deriving DecidableEq, Repr

/-- `AssignmentCreate` validation: the line list is nonempty (`min_length=1`)
and notes bounded; there is no uniqueness validator on
`external_po_line_numbers`. -/
def validateAssignmentCreate (c : AssignmentCreate) : Except ServiceError Unit :=
  if c.external_po_line_numbers.isEmpty then
    .error (.validation "external_po_line_numbers must contain at least 1 item")
  else if (c.assignment_notes.getD "").length > 5000 then
    .error (.validation "assignment_notes too long")
  else .ok ()

/-- `AssignmentUpdate` request body. -/
structure AssignmentUpdate where
  external_po_line_numbers : Option (List String) := none
  assigned_to_sbc_id : Option Nat := none
  assignment_notes : Option String := none
deriving DecidableEq, Repr

/-- `AssignmentUpdate` validation: a provided line list is nonempty, notes
bounded. -/
def validateAssignmentUpdate (u : AssignmentUpdate) : Except ServiceError Unit :=
  if (u.external_po_line_numbers.getD ["x"]).isEmpty then
    .error (.validation "external_po_line_numbers must contain at least 1 item")
  else if (u.assignment_notes.getD "").length > 5000 then
    .error (.validation "assignment_notes too long")
  else .ok ()

/-- `AssignmentReject` validation: `rejection_reason` has
`min_length=1, max_length=5000`. -/
def validateReject (reason : String) : Except ServiceError Unit :=
  if reason.length < 1 then .error (.validation "rejection_reason must not be empty")
  else if reason.length > 5000 then .error (.validation "rejection_reason too long")
  else .ok ()

/-! ## Service operations (`AssignmentService`) -/

/-- The `Assignment(...)` constructor call in the two creation paths:
status `DRAFT`, approval bookkeeping unset. -/
def mkDraft (pk : Nat) (iid : String) (pmId sbcId : Nat) (po : String)
    (lines : List String) (notes : Option String) : Assignment :=
  { pk := pk, internal_po_id := iid, created_by_pm_id := pmId,
    assigned_to_sbc_id := sbcId, external_po_number := po,
    external_po_line_numbers := lines, status := .DRAFT,
    assignment_notes := notes }

/-- `bulk_create_assignments`: validate the SBC, group, check conflicts
against the committed store, then build one DRAFT assignment per PO group.
Each `_generate_internal_po_id` call inside the loop queries the committed
store only (`autoflush=False`): the rows added earlier in the same loop are
not visible to it.  All inserts commit as one transaction. -/
def bulk_create_assignments (db : DB) (bulk_data : BulkAssignmentCreate)
    (created_by_pm_id : Nat) (dateStr : String) : Except ServiceError DB :=
  match findSbc db bulk_data.assigned_to_sbc_id with
  | none => .error (.notFound "SBC not found")
  | some _ =>
    let grouped := group_lines_by_po_number bulk_data.po_lines
    match check_lines_not_assigned db.assignments grouped with
    | .error e => .error e
    | .ok _ =>
      let pending := grouped.enum.map (fun p =>
        mkDraft (db.nextPk + p.1) (generate_internal_po_id db.assignments dateStr)
          created_by_pm_id bulk_data.assigned_to_sbc_id p.2.1 p.2.2
          bulk_data.assignment_notes)
      match commitInserts db pending with
      | .error e => .error e
      | .ok db' => .ok { db' with nextPk := db.nextPk + grouped.length }

/-- `create_assignment` (single manual creation). -/
def create_assignment (db : DB) (d : AssignmentCreate) (created_by_pm_id : Nat)
    (dateStr : String) : Except ServiceError (DB × Assignment) :=
  match findSbc db d.assigned_to_sbc_id with
  | none => .error (.notFound "SBC not found")
  | some _ =>
    match check_lines_not_assigned db.assignments
        [(d.external_po_number, d.external_po_line_numbers)] with
    | .error e => .error e
    | .ok _ =>
      let a := mkDraft db.nextPk (generate_internal_po_id db.assignments dateStr)
        created_by_pm_id d.assigned_to_sbc_id d.external_po_number
        d.external_po_line_numbers d.assignment_notes
      match commitInserts db [a] with
      | .error e => .error e
      | .ok db' => .ok ({ db' with nextPk := db.nextPk + 1 }, a)

/-- The field-overwrite block of `update_assignment` (line list, then
assignee with its SBC existence check, then notes).  No conflict check is
performed on the new line list. -/
def applyUpdates (db : DB) (a : Assignment) (u : AssignmentUpdate) :
    Except ServiceError Assignment :=
  let a1 := match u.external_po_line_numbers with
    | some ls => { a with external_po_line_numbers := ls }
    | none => a
  match u.assigned_to_sbc_id with
  | some s =>
    match findSbc db s with
    | none => .error (.notFound "SBC not found")
    | some _ =>
      let a2 := { a1 with assigned_to_sbc_id := s }
      .ok (match u.assignment_notes with
           | some n => { a2 with assignment_notes := some n }
           | none => a2)
  | none =>
    .ok (match u.assignment_notes with
         | some n => { a1 with assignment_notes := some n }
         | none => a1)

/-- `update_assignment`: DRAFT only; creator or admin; overwrites the
requested fields. -/
def update_assignment (db : DB) (aid : Nat) (u : AssignmentUpdate)
    (user_id : Nat) : Except ServiceError (DB × Assignment) :=
  match get_assignment_by_id db aid with
  | none => .error (.notFound "Assignment not found")
  | some a =>
    if a.status ≠ .DRAFT then
      .error (.invalidState ("Cannot update assignment in " ++ a.status.value ++ " status"))
    else
      let authorized := a.created_by_pm_id == user_id ||
        (match findUser db user_id with
         | some u' => u'.role == .ADMIN
         | none => false)
      if !authorized then .error (.forbidden "Not authorized to update this assignment")
      else
        match applyUpdates db a u with
        | .error e => .error e
        | .ok a' => .ok (setAssignment db a', a')

/-- `submit_for_approval`: creator only, DRAFT only;
DRAFT → PENDING_PD_APPROVAL, sets `submitted_at`. -/
def submit_for_approval (db : DB) (aid : Nat) (user_id : Nat) (now : Nat) :
    Except ServiceError (DB × Assignment) :=
  match get_assignment_by_id db aid with
  | none => .error (.notFound "Assignment not found")
  | some a =>
    if a.created_by_pm_id ≠ user_id then
      .error (.forbidden "Only creator can submit assignment")
    else if a.status ≠ .DRAFT then
      .error (.invalidState ("Cannot submit assignment in " ++ a.status.value ++ " status"))
    else
      let a' := { a with status := .PENDING_PD_APPROVAL, submitted_at := some now }
      .ok (setAssignment db a', a')

/-- `approve_level1`: PENDING_PD_APPROVAL only, PD role only;
PENDING_PD_APPROVAL → PENDING_ADMIN_APPROVAL, records approver, timestamp
and remarks. -/
def approve_level1 (db : DB) (aid : Nat) (pd_id : Nat)
    (pd_remarks : Option String) (now : Nat) : Except ServiceError (DB × Assignment) :=
  match get_assignment_by_id db aid with
  | none => .error (.notFound "Assignment not found")
  | some a =>
    if a.status ≠ .PENDING_PD_APPROVAL then
      .error (.invalidState ("Cannot approve assignment in " ++ a.status.value ++
        " status. Must be PENDING_PD_APPROVAL."))
    else
      let okRole := match findUser db pd_id with
        | some u => u.role == .PD
        | none => false
      if !okRole then .error (.forbidden "Only PD can give Level 1 approval")
      else
        let a' := { a with
          status := .PENDING_ADMIN_APPROVAL
          pd_approved_by_id := some pd_id
          pd_approved_at := some now
          pd_remarks := pd_remarks }
        .ok (setAssignment db a', a')

/-- `approve_level2`: PENDING_ADMIN_APPROVAL only, Admin role only;
PENDING_ADMIN_APPROVAL → APPROVED, records approver, timestamp and remarks. -/
def approve_level2 (db : DB) (aid : Nat) (admin_id : Nat)
    (admin_remarks : Option String) (now : Nat) : Except ServiceError (DB × Assignment) :=
  match get_assignment_by_id db aid with
  | none => .error (.notFound "Assignment not found")
  | some a =>
    if a.status ≠ .PENDING_ADMIN_APPROVAL then
      .error (.invalidState ("Cannot approve assignment in " ++ a.status.value ++
        " status. Must be PENDING_ADMIN_APPROVAL."))
    else
      let okRole := match findUser db admin_id with
        | some u => u.role == .ADMIN
        | none => false
      if !okRole then .error (.forbidden "Only Admin can give Level 2 approval")
      else
        let a' := { a with
          status := .APPROVED
          admin_approved_by_id := some admin_id
          admin_approved_at := some now
          admin_remarks := admin_remarks }
        .ok (setAssignment db a', a')

/-- `reject_assignment`: possible from either pending status, by PD or
Admin; sets REJECTED, the rejector, the timestamp and the reason verbatim. -/
def reject_assignment (db : DB) (aid : Nat) (rejector_id : Nat)
    (rejection_reason : String) (now : Nat) : Except ServiceError (DB × Assignment) :=
  match get_assignment_by_id db aid with
  | none => .error (.notFound "Assignment not found")
  | some a =>
    if ¬ (a.status = .PENDING_PD_APPROVAL ∨ a.status = .PENDING_ADMIN_APPROVAL) then
      .error (.invalidState ("Cannot reject assignment in " ++ a.status.value ++ " status"))
    else
      let okRole := match findUser db rejector_id with
        | some u => u.role == .PD || u.role == .ADMIN
        | none => false
      if !okRole then .error (.forbidden "Only PD or Admin can reject assignments")
      else
        let a' := { a with
          status := .REJECTED
          rejected_by_id := some rejector_id
          rejected_at := some now
          rejection_reason := some rejection_reason }
        .ok (setAssignment db a', a')

/-! ## API endpoints: pydantic validation composed with the service call -/

/-- POST /assignments/bulk. -/
def bulkCreateEndpoint (db : DB) (b : BulkAssignmentCreate) (pmId : Nat)
    (dateStr : String) : Except ServiceError DB :=
  match validateBulkCreate b with
  | .error e => .error e
  | .ok _ => bulk_create_assignments db b pmId dateStr

/-- POST /assignments. -/
def createEndpoint (db : DB) (c : AssignmentCreate) (pmId : Nat)
    (dateStr : String) : Except ServiceError (DB × Assignment) :=
  match validateAssignmentCreate c with
  | .error e => .error e
  | .ok _ => create_assignment db c pmId dateStr

/-- PUT /assignments/id. -/
def updateEndpoint (db : DB) (aid : Nat) (u : AssignmentUpdate) (userId : Nat) :
    Except ServiceError (DB × Assignment) :=
  match validateAssignmentUpdate u with
  | .error e => .error e
  | .ok _ => update_assignment db aid u userId

/-- POST /assignments/id/reject. -/
def rejectEndpoint (db : DB) (aid : Nat) (rejectorId : Nat) (reason : String)
    (now : Nat) : Except ServiceError (DB × Assignment) :=
  match validateReject reason with
  | .error e => .error e
  | .ok _ => reject_assignment db aid rejectorId reason now

/-! ## The operation alphabet and transition system -/

/-- One invocation of a core operation. -/
inductive Op where
  | bulkCreate (b : BulkAssignmentCreate) (pmId : Nat) (dateStr : String)
  | createSingle (c : AssignmentCreate) (pmId : Nat) (dateStr : String)
  | update (aid : Nat) (u : AssignmentUpdate) (userId : Nat)
  | submit (aid userId now : Nat)
  | approveL1 (aid pdId : Nat) (remarks : Option String) (now : Nat)
  | approveL2 (aid adminId : Nat) (remarks : Option String) (now : Nat)
  | reject (aid rejectorId : Nat) (reason : String) (now : Nat)
deriving DecidableEq, Repr

/-- Execute one operation against the store. -/
def execOp (db : DB) : Op → Except ServiceError DB
  | .bulkCreate b pm d => bulkCreateEndpoint db b pm d
  | .createSingle c pm d => (createEndpoint db c pm d).map Prod.fst
  | .update aid u uid => (updateEndpoint db aid u uid).map Prod.fst
  | .submit aid uid now => (submit_for_approval db aid uid now).map Prod.fst
  | .approveL1 aid pdId rem now => (approve_level1 db aid pdId rem now).map Prod.fst
  | .approveL2 aid adminId rem now => (approve_level2 db aid adminId rem now).map Prod.fst
  | .reject aid rid reason now => (rejectEndpoint db aid rid reason now).map Prod.fst

/-- A failed operation leaves the committed store unchanged (the transaction
never commits). -/
def applyOp (db : DB) (op : Op) : DB :=
  match execOp db op with
  | .ok db' => db'
  | .error _ => db

/-- A starting state with the given identities and no assignments. -/
def initDB (users : List InternalUser) : DB :=
  { users := users, assignments := [], nextPk := 0 }

/-- Run a sequence of operations from an assignment-free store. -/
def runOps (users : List InternalUser) (ops : List Op) : DB :=
  ops.foldl applyOp (initDB users)

/-! ## Invariant-level predicates used by the claims -/

/-- No two distinct non-terminal assignments share a `(PO number, PO line)`
pair. -/
def assignmentsOverlapFree (db : DB) : Bool :=
  db.assignments.all fun a => db.assignments.all fun b =>
    a == b || !nonTerminalStatus a.status || !nonTerminalStatus b.status ||
    a.external_po_number != b.external_po_number ||
    a.external_po_line_numbers.all (fun l => !b.external_po_line_numbers.contains l)

/-- An APPROVED assignment carries evidence of both approval levels, and a
PENDING_ADMIN_APPROVAL one carries evidence of level 1. -/
def okEvidence (a : Assignment) : Prop :=
  (a.status = .APPROVED → a.pd_approved_by_id.isSome ∧ a.admin_approved_by_id.isSome) ∧
  (a.status = .PENDING_ADMIN_APPROVAL → a.pd_approved_by_id.isSome)

/-- Every stored assignment carries the approval evidence its status
requires. -/
def approvalEvidence (db : DB) : Prop :=
  ∀ a ∈ db.assignments, okEvidence a

/-- The identity, external PO number and line set of every stored
assignment — the fields the approval-path operations must never touch. -/
def linesView (db : DB) : List (Nat × String × List String) :=
  db.assignments.map (fun a => (a.pk, a.external_po_number, a.external_po_line_numbers))

/-- A well-formed id for sequence number `k` on date `dateStr`. -/
def mkId (dateStr : String) (k : Nat) : String :=
  "PO-SIB-" ++ dateStr ++ "-" ++ pad3 k

/-- `n` sequential `generate_internal_id` calls from an empty store, each
committing its result. -/
def genIterate (dateStr : String) : Nat → List String
  | 0 => []
  | n + 1 =>
    let ids := genIterate dateStr n
    ids ++ [generate_internal_id ids dateStr]

/-! ## Concrete fixtures -/

/-- A project-manager identity. -/
def pmU : InternalUser := { id := 1, role := .PROJECT_MANAGER }

/-- An SBC identity. -/
def sbcU : InternalUser := { id := 2, role := .SBC }

/-- A PD (level-1 approver) identity. -/
def pdU : InternalUser := { id := 3, role := .PD }

/-- An Admin (level-2 approver) identity. -/
def adU : InternalUser := { id := 4, role := .ADMIN }

/-- The standard cast of identities. -/
def users4 : List InternalUser := [pmU, sbcU, pdU, adU]

/-- An empty store with the standard identities. -/
def db0 : DB := initDB users4

/-- The §8 end-to-end batch: three lines of PO 1212121 and two of PO 1313131. -/
def bulk5 : BulkAssignmentCreate :=
  { po_lines := [("1212121", "2"), ("1212121", "3"), ("1212121", "4"),
                 ("1313131", "6"), ("1313131", "7")]
    assigned_to_sbc_id := 2 }

/-- A single-create request for line 2 of PO 1212121. -/
def createLine2 : AssignmentCreate :=
  { external_po_number := "1212121"
    external_po_line_numbers := ["2"]
    assigned_to_sbc_id := 2 }

/-- A single-create request for line 3 of PO 1212121. -/
def createLine3 : AssignmentCreate :=
  { external_po_number := "1212121"
    external_po_line_numbers := ["3"]
    assigned_to_sbc_id := 2 }

/-- Two single creations on disjoint lines of one PO, then a DRAFT update
that rewrites the second assignment's line set onto the first one's line. -/
def opsOverlap : List Op :=
  [ .createSingle createLine2 1 "20260101"
  , .createSingle createLine3 1 "20260101"
  , .update 1 { external_po_line_numbers := some ["2"] } 1 ]

/-- A single-create request whose line list repeats the same line number. -/
def dupLineCreate : AssignmentCreate :=
  { external_po_number := "1212121"
    external_po_line_numbers := ["2", "2"]
    assigned_to_sbc_id := 2 }

/-- A bulk request with a duplicate `(po_number, po_line)` pair. -/
def dupPairBulk : BulkAssignmentCreate :=
  { po_lines := [("1212121", "2"), ("1212121", "2")], assigned_to_sbc_id := 2 }

/-! ## Grouping lemmas -/

/-- Dictionary access on the grouped structure (`grouped[po_number]`). -/
def groupFind (g : List (String × List String)) (po : String) : Option (List String) :=
  (g.find? (fun p => p.1 == po)).map Prod.snd

theorem groupFind_nil (q : String) : groupFind [] q = none := rfl

theorem groupFind_cons_self (k : String) (ls : List String)
    (rest : List (String × List String)) :
    groupFind ((k, ls) :: rest) k = some ls := by
  simp [groupFind, List.find?]

theorem groupFind_cons_ne {k q : String} (h : k ≠ q) (ls : List String)
    (rest : List (String × List String)) :
    groupFind ((k, ls) :: rest) q = groupFind rest q := by
  have hb : (k == q) = false := by simpa using h
  simp [groupFind, List.find?, hb]

theorem groupFind_insertLine (acc : List (String × List String)) (po ln q : String) :
    groupFind (insertLine acc po ln) q =
      if q = po then some ((groupFind acc q).getD [] ++ [ln]) else groupFind acc q := by
  induction acc with
  | nil =>
    by_cases h : q = po
    · subst h
      rw [if_pos rfl]
      show groupFind [(q, [ln])] q = some (Option.getD none [] ++ [ln])
      rw [groupFind_cons_self]
      rfl
    · rw [if_neg h]
      show groupFind [(po, [ln])] q = groupFind [] q
      rw [groupFind_cons_ne (fun hp => h hp.symm)]
  | cons head rest ih =>
    obtain ⟨k, ls⟩ := head
    by_cases hk : k = po
    · simp only [insertLine, if_pos hk]
      subst hk
      by_cases hq : q = k
      · subst hq
        rw [groupFind_cons_self, if_pos rfl, groupFind_cons_self]
        rfl
      · rw [groupFind_cons_ne (fun hp => hq hp.symm), if_neg hq,
          groupFind_cons_ne (fun hp => hq hp.symm)]
    · simp only [insertLine, if_neg hk]
      by_cases hq : q = k
      · subst hq
        rw [groupFind_cons_self, if_neg hk, groupFind_cons_self]
      · rw [groupFind_cons_ne (fun hp => hq hp.symm),
          groupFind_cons_ne (fun hp => hq hp.symm), ih]

theorem groupFind_fold (l : List (String × String)) (acc : List (String × List String))
    (q : String) :
    groupFind (l.foldl (fun acc p => insertLine acc p.1 p.2) acc) q =
      if (l.filter (fun p => p.1 = q)).isEmpty then groupFind acc q
      else some ((groupFind acc q).getD [] ++ (l.filter (fun p => p.1 = q)).map Prod.snd) := by
  induction l generalizing acc with
  | nil => simp
  | cons p l ih =>
    rw [List.foldl_cons, ih (insertLine acc p.1 p.2), groupFind_insertLine]
    by_cases hq : p.1 = q
    · have hfilter : (p :: l).filter (fun p => p.1 = q) = p :: l.filter (fun p => p.1 = q) := by
        simp [List.filter_cons, hq]
      rw [hfilter, if_pos hq.symm]
      by_cases he : (l.filter (fun p => p.1 = q)).isEmpty
      · have hnil : l.filter (fun p => p.1 = q) = [] := List.isEmpty_iff.mp he
        rw [if_pos he, if_neg (by simp), hnil]
        simp
      · rw [if_neg he, if_neg (by simp)]
        simp [List.append_assoc]
    · have hfilter : (p :: l).filter (fun p => p.1 = q) = l.filter (fun p => p.1 = q) := by
        simp [List.filter_cons, hq]
      rw [hfilter, if_neg (fun h : q = p.1 => hq h.symm)]

theorem groupFind_group (input : List (String × String)) (q : String) :
    groupFind (group_lines_by_po_number input) q =
      if (input.filter (fun p => p.1 = q)).isEmpty then none
      else some ((input.filter (fun p => p.1 = q)).map Prod.snd) := by
  rw [group_lines_by_po_number, groupFind_fold]
  simp [groupFind]

theorem keys_insertLine (acc : List (String × List String)) (po ln : String) :
    (insertLine acc po ln).map Prod.fst =
      if po ∈ acc.map Prod.fst then acc.map Prod.fst else acc.map Prod.fst ++ [po] := by
  induction acc with
  | nil => simp [insertLine]
  | cons head rest ih =>
    obtain ⟨k, ls⟩ := head
    by_cases hk : k = po
    · simp only [insertLine, if_pos hk, List.map_cons]
      subst hk
      rw [if_pos (List.mem_cons_self k _)]
    · have hne : po ≠ k := fun h => hk h.symm
      simp only [insertLine, if_neg hk, List.map_cons]
      rw [ih]
      by_cases hmem : po ∈ rest.map Prod.fst
      · rw [if_pos hmem, if_pos (List.mem_cons_of_mem _ hmem)]
      · have hno : po ∉ k :: rest.map Prod.fst := by
          intro h
          rcases List.mem_cons.mp h with h1 | h2
          · exact hne h1
          · exact hmem h2
        rw [if_neg hmem, if_neg hno, List.cons_append]

theorem keys_nodup_insertLine (acc : List (String × List String)) (po ln : String)
    (h : (acc.map Prod.fst).Nodup) : ((insertLine acc po ln).map Prod.fst).Nodup := by
  rw [keys_insertLine]
  by_cases hmem : po ∈ acc.map Prod.fst
  · rwa [if_pos hmem]
  · rw [if_neg hmem, List.nodup_append]
    refine ⟨h, List.nodup_singleton po, ?_⟩
    intro x hx hx'
    rw [List.mem_singleton] at hx'
    subst hx'
    exact hmem hx

theorem keys_nodup_group (input : List (String × String)) :
    ((group_lines_by_po_number input).map Prod.fst).Nodup := by
  rw [group_lines_by_po_number]
  have : ∀ acc : List (String × List String), (acc.map Prod.fst).Nodup →
      ((input.foldl (fun acc p => insertLine acc p.1 p.2) acc).map Prod.fst).Nodup := by
    induction input with
    | nil => exact fun acc h => h
    | cons p l ih =>
      intro acc h
      exact ih _ (keys_nodup_insertLine acc p.1 p.2 h)
  exact this [] (by simp)

theorem mem_groupFind {g : List (String × List String)}
    (hnd : (g.map Prod.fst).Nodup) {po : String} {ls : List String}
    (h : (po, ls) ∈ g) : groupFind g po = some ls := by
  induction g with
  | nil => cases h
  | cons head rest ih =>
    obtain ⟨k, ls'⟩ := head
    rcases List.mem_cons.mp h with heq | hmem
    · injection heq with h1 h2
      subst h1
      subst h2
      exact groupFind_cons_self po ls rest
    · have hk : k ≠ po := by
        intro hk
        subst hk
        have : k ∈ rest.map Prod.fst := List.mem_map.mpr ⟨(k, ls), hmem, rfl⟩
        exact (List.nodup_cons.mp hnd).1 this
      rw [groupFind_cons_ne hk]
      exact ih (List.nodup_cons.mp hnd).2 hmem

theorem groupFind_mem {g : List (String × List String)} {po : String} {ls : List String}
    (h : groupFind g po = some ls) : (po, ls) ∈ g := by
  simp only [groupFind, Option.map_eq_some'] at h
  obtain ⟨⟨k, ls'⟩, hfind, hsnd⟩ := h
  have hmem := List.mem_of_find?_eq_some hfind
  have hkey := List.find?_some hfind
  simp only [beq_iff_eq] at hkey
  cases hsnd
  cases hkey
  exact hmem

/-- The group stored for key `po` is exactly the lines submitted for `po`,
in input order. -/
theorem group_entry_char {input : List (String × String)} {po : String}
    {ls : List String} (h : (po, ls) ∈ group_lines_by_po_number input) :
    ls = (input.filter (fun p => p.1 = po)).map Prod.snd := by
  have := mem_groupFind (keys_nodup_group input) h
  rw [groupFind_group] at this
  by_cases he : (input.filter (fun p => p.1 = po)).isEmpty
  · rw [if_pos he] at this; cases this
  · rw [if_neg he] at this
    exact (Option.some_inj.mp this).symm

/-- Every submitted pair lands in the group of its PO number. -/
theorem group_covers {input : List (String × String)} {po ln : String}
    (h : (po, ln) ∈ input) :
    ∃ ls, (po, ls) ∈ group_lines_by_po_number input ∧ ln ∈ ls := by
  have hf : (po, ln) ∈ input.filter (fun p => p.1 = po) :=
    List.mem_filter.mpr ⟨h, by simp⟩
  have hne : ¬ (input.filter (fun p => p.1 = po)).isEmpty := by
    rw [List.isEmpty_iff]
    intro hnil
    rw [hnil] at hf
    cases hf
  refine ⟨(input.filter (fun p => p.1 = po)).map Prod.snd, ?_, ?_⟩
  · exact groupFind_mem (by rw [groupFind_group, if_neg hne])
  · exact List.mem_map.mpr ⟨(po, ln), hf, rfl⟩

/-! ## Claim theorems -/

/-- Claim C1: the claim states that every reachable state keeps distinct
non-terminal assignments from sharing a `(PO number, PO line)` pair, update
of a DRAFT line set included.  The code violates this: `update_assignment`
performs no conflict check on the new line list, so a legal trace — two
conflict-checked creations on disjoint lines of PO 1212121 followed by a
creator update of the second DRAFT assignment's line set onto the first's
line — ends with two distinct DRAFT assignments both holding
("1212121", "2"). -/
theorem C1_update_breaks_line_exclusivity :
    linesView (runOps users4 opsOverlap) =
      [(0, "1212121", ["2"]), (1, "1212121", ["2"])] ∧
    (runOps users4 opsOverlap).assignments.map (fun a => a.status) =
      [.DRAFT, .DRAFT] ∧
    assignmentsOverlapFree (runOps users4 opsOverlap) = false := by
  refine ⟨by decide, by decide, by decide⟩

/-- Claim C2: the claim states the five-line batch produces two DRAFT
assignments with consecutive internal ids.  The code cannot: the session is
created with `autoflush=False` (app/database.py), so the second
`_generate_internal_po_id` call inside the creation loop does not see the
first, still-uncommitted assignment and both per-PO assignments receive the
same id `PO-SIB-<today>-001`; the single commit then violates the
`unique=True` constraint on `internal_po_id` and nothing is persisted. -/
theorem C2_bulk_create_duplicate_internal_id :
    (group_lines_by_po_number bulk5.po_lines).length = 2 ∧
    generate_internal_po_id db0.assignments "20260101" = "PO-SIB-20260101-001" ∧
    bulkCreateEndpoint db0 bulk5 1 "20260101" =
      .error (.integrity
        "duplicate key value violates unique constraint on internal_po_id") ∧
    applyOp db0 (.bulkCreate bulk5 1 "20260101") = db0 := by
  refine ⟨by decide, by decide, by decide, by decide⟩

/-- Claim C3 counterexample: with the ids for sequence numbers 999 and 1000
already present for the date, the string-descending `ORDER BY` picks
`...-999` (since "9" > "1" at the first differing character), so the code
returns `PO-SIB-20260101-1000` — an id that is already present, and not one
more than the maximum existing sequence number (which is 1000). -/
theorem C3_counterexample_repeats_existing_id :
    generate_internal_id ["PO-SIB-20260101-999", "PO-SIB-20260101-1000"]
        "20260101" = "PO-SIB-20260101-1000" ∧
    "PO-SIB-20260101-1000" ∈
      ["PO-SIB-20260101-999", "PO-SIB-20260101-1000"] := by
  refine ⟨by decide, by decide⟩

/-- Claim C10: the single-create path accepts a line list with a repeated
line number — `AssignmentCreate` has no uniqueness validator — and stores
the duplicate entries in the created DRAFT assignment, while the bulk path
(`BulkAssignmentCreate.validate_po_lines_unique`) rejects a duplicate
`(po_number, po_line)` pair with a validation error. -/
theorem C10_single_create_accepts_duplicate_lines :
    validateAssignmentCreate dupLineCreate = .ok () ∧
    (createEndpoint db0 dupLineCreate 1 "20260101").map
        (fun p => (p.2.status, p.2.external_po_line_numbers)) =
      .ok (.DRAFT, ["2", "2"]) ∧
    validateBulkCreate dupPairBulk = .error (.validation "Duplicate PO line") := by
  refine ⟨by decide, by decide, by decide⟩

/-- Claim C8: for every non-empty selection batch with unique
`(po_number, po_line)` pairs, `_group_lines_by_po_number` produces groups
whose union of lines is exactly the input set of pairs, with distinct PO
keys (so no pair lands in two groups), and within each PO number the lines
appear in input (first-appearance) order — each group is precisely the
input subsequence for its PO number, projected to line numbers. -/
theorem C8_group_by_po_partitions (input : List POLineSelection)
    (hne : input ≠ []) (hnd : input.Nodup) :
    (∀ po ls, (po, ls) ∈ group_lines_by_po_number input →
        ls = (input.filter (fun p => p.1 = po)).map Prod.snd) ∧
    ((group_lines_by_po_number input).map Prod.fst).Nodup ∧
    (∀ po ln, (po, ln) ∈ input ↔
        ∃ ls, (po, ls) ∈ group_lines_by_po_number input ∧ ln ∈ ls) := by
  refine ⟨fun po ls h => group_entry_char h, keys_nodup_group input, fun po ln => ⟨?_, ?_⟩⟩
  · exact fun h => group_covers h
  · rintro ⟨ls, hmem, hln⟩
    rw [group_entry_char hmem] at hln
    obtain ⟨⟨po', ln'⟩, hp, hsnd⟩ := List.mem_map.mp hln
    have hfst : po' = po := by simpa using (List.mem_filter.mp hp).2
    have hin := (List.mem_filter.mp hp).1
    cases hsnd
    rw [hfst] at hin
    exact hin

/-- Witness for C8 at the batch
`[("1212121","2"), ("1313131","6"), ("1212121","3")]`. -/
theorem C8_group_by_po_partitions_witness :
    ((group_lines_by_po_number
        [("1212121", "2"), ("1313131", "6"), ("1212121", "3")]).map Prod.fst).Nodup ∧
    ∃ ls, ("1212121", ls) ∈ group_lines_by_po_number
        [("1212121", "2"), ("1313131", "6"), ("1212121", "3")] ∧ "3" ∈ ls := by
  have h := C8_group_by_po_partitions
    [("1212121", "2"), ("1313131", "6"), ("1212121", "3")] (by decide) (by decide)
  exact ⟨h.2.1, (h.2.2 "1212121" "3").mp (by decide)⟩

/-! ## Frame lemmas: the approval-path operations never touch PO data -/

theorem linesView_setAssignment {db : DB} {a a' : Assignment}
    (hnd : (db.assignments.map fun x => x.pk).Nodup)
    (ha : a ∈ db.assignments) (hpk : a'.pk = a.pk)
    (hpo : a'.external_po_number = a.external_po_number)
    (hlines : a'.external_po_line_numbers = a.external_po_line_numbers) :
    linesView (setAssignment db a') = linesView db := by
  simp only [linesView, setAssignment, List.map_map]
  apply List.map_congr_left
  intro b hb
  by_cases h : (b.pk == a'.pk) = true
  · have hbpk : b.pk = a'.pk := by simpa using h
    have hba : b = a := List.inj_on_of_nodup_map hnd hb ha (by rw [hbpk, hpk])
    subst hba
    simp only [Function.comp_apply, if_pos h]
    rw [hpk, hpo, hlines]
  · simp only [Function.comp_apply, if_neg h]

theorem linesView_submit (db : DB)
    (hnd : (db.assignments.map fun x => x.pk).Nodup) (aid uid now : Nat) :
    linesView (applyOp db (.submit aid uid now)) = linesView db := by
  cases hfind : get_assignment_by_id db aid with
  | none => simp [applyOp, execOp, submit_for_approval, hfind, Except.map]
  | some a =>
    have hmem : a ∈ db.assignments := List.mem_of_find?_eq_some hfind
    by_cases h1 : a.created_by_pm_id ≠ uid
    · simp [applyOp, execOp, submit_for_approval, hfind, h1, Except.map]
    · by_cases h2 : a.status ≠ .DRAFT
      · simp [applyOp, execOp, submit_for_approval, hfind, h1, h2, Except.map]
      · simp only [applyOp, execOp, submit_for_approval, hfind, if_neg h1, if_neg h2,
          Except.map]
        exact linesView_setAssignment hnd hmem rfl rfl rfl

theorem linesView_approve1 (db : DB)
    (hnd : (db.assignments.map fun x => x.pk).Nodup) (aid pdId : Nat)
    (rem : Option String) (now : Nat) :
    linesView (applyOp db (.approveL1 aid pdId rem now)) = linesView db := by
  cases hfind : get_assignment_by_id db aid with
  | none => simp [applyOp, execOp, approve_level1, hfind, Except.map]
  | some a =>
    have hmem : a ∈ db.assignments := List.mem_of_find?_eq_some hfind
    by_cases h1 : a.status ≠ .PENDING_PD_APPROVAL
    · simp [applyOp, execOp, approve_level1, hfind, h1, Except.map]
    · by_cases h2 : (!(match findUser db pdId with
        | some u => u.role == UserRole.PD
        | none => false)) = true
      · simp [applyOp, execOp, approve_level1, hfind, h1, h2, Except.map]
      · simp only [applyOp, execOp, approve_level1, hfind, if_neg h1, if_neg h2,
          Except.map]
        exact linesView_setAssignment hnd hmem rfl rfl rfl

theorem linesView_approve2 (db : DB)
    (hnd : (db.assignments.map fun x => x.pk).Nodup) (aid adminId : Nat)
    (rem : Option String) (now : Nat) :
    linesView (applyOp db (.approveL2 aid adminId rem now)) = linesView db := by
  cases hfind : get_assignment_by_id db aid with
  | none => simp [applyOp, execOp, approve_level2, hfind, Except.map]
  | some a =>
    have hmem : a ∈ db.assignments := List.mem_of_find?_eq_some hfind
    by_cases h1 : a.status ≠ .PENDING_ADMIN_APPROVAL
    · simp [applyOp, execOp, approve_level2, hfind, h1, Except.map]
    · by_cases h2 : (!(match findUser db adminId with
        | some u => u.role == UserRole.ADMIN
        | none => false)) = true
      · simp [applyOp, execOp, approve_level2, hfind, h1, h2, Except.map]
      · simp only [applyOp, execOp, approve_level2, hfind, if_neg h1, if_neg h2,
          Except.map]
        exact linesView_setAssignment hnd hmem rfl rfl rfl

theorem linesView_reject (db : DB)
    (hnd : (db.assignments.map fun x => x.pk).Nodup) (aid rid : Nat)
    (reason : String) (now : Nat) :
    linesView (applyOp db (.reject aid rid reason now)) = linesView db := by
  cases hval : validateReject reason with
  | error e => simp [applyOp, execOp, rejectEndpoint, hval, Except.map]
  | ok u =>
    cases hfind : get_assignment_by_id db aid with
    | none => simp [applyOp, execOp, rejectEndpoint, hval, reject_assignment, hfind, Except.map]
    | some a =>
      have hmem : a ∈ db.assignments := List.mem_of_find?_eq_some hfind
      by_cases h1 : ¬ (a.status = .PENDING_PD_APPROVAL ∨ a.status = .PENDING_ADMIN_APPROVAL)
      · simp [applyOp, execOp, rejectEndpoint, hval, reject_assignment, hfind, h1, Except.map]
      · by_cases h2 : (!(match findUser db rid with
          | some u => u.role == UserRole.PD || u.role == UserRole.ADMIN
          | none => false)) = true
        · simp [applyOp, execOp, rejectEndpoint, hval, reject_assignment, hfind, h1, h2, Except.map]
        · simp only [applyOp, execOp, rejectEndpoint, hval, reject_assignment, hfind,
            if_neg h1, if_neg h2, Except.map]
          exact linesView_setAssignment hnd hmem rfl rfl rfl

/-- Claim C9: submit, level-1 approval, level-2 approval and reject — whether
they succeed or fail — never change any stored assignment's external PO
number or line set (here: the whole `(pk, po_number, line_numbers)` view of
the store is unchanged).  Primary keys are assumed pairwise distinct, as
guaranteed by the uuid primary-key column. -/
theorem C9_approval_ops_preserve_po_data (db : DB)
    (hnd : (db.assignments.map fun x => x.pk).Nodup)
    (aid uid pdId adminId rid now : Nat) (rem : Option String) (reason : String) :
    linesView (applyOp db (.submit aid uid now)) = linesView db ∧
    linesView (applyOp db (.approveL1 aid pdId rem now)) = linesView db ∧
    linesView (applyOp db (.approveL2 aid adminId rem now)) = linesView db ∧
    linesView (applyOp db (.reject aid rid reason now)) = linesView db :=
  ⟨linesView_submit db hnd aid uid now,
   linesView_approve1 db hnd aid pdId rem now,
   linesView_approve2 db hnd aid adminId rem now,
   linesView_reject db hnd aid rid reason now⟩

/-- A one-assignment store used to witness the state-machine claims. -/
def dbDraft : DB :=
  { users := users4
    assignments := [mkDraft 0 "PO-SIB-20260101-001" 1 2 "1212121" ["2", "5"] none]
    nextPk := 1 }

/-- Witness for C9 on a concrete store (a submit that succeeds and three
guard failures). -/
theorem C9_approval_ops_preserve_po_data_witness :
    linesView (applyOp dbDraft (.submit 0 1 77)) = linesView dbDraft ∧
    linesView (applyOp dbDraft (.approveL1 0 3 none 77)) = linesView dbDraft ∧
    linesView (applyOp dbDraft (.approveL2 0 4 none 77)) = linesView dbDraft ∧
    linesView (applyOp dbDraft (.reject 0 3 "bad" 77)) = linesView dbDraft :=
  C9_approval_ops_preserve_po_data dbDraft (by decide) 0 1 3 4 3 77 none "bad"

/-! ## Row-replacement and state-machine lemmas -/

theorem find?_pk_eq {l : List Assignment} {aid : Nat} {a : Assignment}
    (h : l.find? (fun b => b.pk == aid) = some a) : a.pk = aid := by
  induction l with
  | nil => simp [List.find?] at h
  | cons b l ih =>
    cases hb : b.pk == aid with
    | true =>
      simp only [List.find?_cons, hb] at h
      have hba : b = a := Option.some_inj.mp h
      subst hba
      simpa using hb
    | false =>
      simp only [List.find?_cons, hb] at h
      exact ih h

theorem find_replace (l : List Assignment) (aid : Nat) (a a' : Assignment)
    (h : l.find? (fun b => b.pk == aid) = some a) (hpk : a'.pk = a.pk) :
    (l.map fun b => if b.pk == a'.pk then a' else b).find? (fun b => b.pk == aid) =
      some a' := by
  induction l with
  | nil => simp [List.find?] at h
  | cons b l ih =>
    cases hb : b.pk == aid with
    | true =>
      simp only [List.find?_cons, hb] at h
      have hba : b = a := Option.some_inj.mp h
      subst hba
      have hb' : (b.pk == a'.pk) = true := by
        rw [hpk]
        exact beq_self_eq_true b.pk
      have ha' : (a'.pk == aid) = true := by
        rw [hpk]
        exact hb
      simp only [List.map_cons, if_pos hb', List.find?_cons, ha']
    | false =>
      simp only [List.find?_cons, hb] at h
      have haid : a.pk = aid := find?_pk_eq h
      have hbne : (b.pk == a'.pk) = false := by
        rw [hpk, haid]
        exact hb
      have hhead : (if b.pk == a'.pk then a' else b) = b := by simp [hbne]
      simp only [List.map_cons, hhead, List.find?_cons, hb]
      exact ih h

theorem get_setAssignment {db : DB} {aid : Nat} {a : Assignment} (a' : Assignment)
    (h : get_assignment_by_id db aid = some a) (hpk : a'.pk = a.pk) :
    get_assignment_by_id (setAssignment db a') aid = some a' :=
  find_replace db.assignments aid a a' h hpk

/-- Claim C6: on a DRAFT assignment, submit by a non-creator fails with the
permission error; submit by the creator succeeds, moves the status to
PENDING_PD_APPROVAL and records the submission timestamp; a second submit by
the creator on the now non-DRAFT assignment fails with the invalid-state
error. -/
theorem C6_submit_state_machine (db : DB) (aid uid now : Nat) (a : Assignment)
    (ha : get_assignment_by_id db aid = some a) (hd : a.status = .DRAFT) :
    (uid ≠ a.created_by_pm_id →
      submit_for_approval db aid uid now =
        .error (.forbidden "Only creator can submit assignment")) ∧
    (uid = a.created_by_pm_id →
      submit_for_approval db aid uid now =
        .ok (setAssignment db
               { a with status := .PENDING_PD_APPROVAL, submitted_at := some now },
             { a with status := .PENDING_PD_APPROVAL, submitted_at := some now }) ∧
      ∀ now2 : Nat,
        submit_for_approval
            (setAssignment db
              { a with status := .PENDING_PD_APPROVAL, submitted_at := some now })
            aid uid now2 =
          .error (.invalidState "Cannot submit assignment in PENDING_PD_APPROVAL status")) := by
  constructor
  · intro hne
    have h1 : a.created_by_pm_id ≠ uid := fun h => hne h.symm
    simp only [submit_for_approval, ha]
    rw [if_pos h1]
  · intro heq
    have h1 : ¬ a.created_by_pm_id ≠ uid := fun h => h heq.symm
    have h2 : ¬ a.status ≠ AssignmentStatus.DRAFT := fun h => h hd
    constructor
    · simp only [submit_for_approval, ha]
      rw [if_neg h1, if_neg h2]
    · intro now2
      have hfind' := get_setAssignment
        { a with status := .PENDING_PD_APPROVAL, submitted_at := some now } ha rfl
      simp only [submit_for_approval, hfind']
      rw [if_neg h1,
        if_pos (by decide : AssignmentStatus.PENDING_PD_APPROVAL ≠ AssignmentStatus.DRAFT)]
      rfl

/-- The DRAFT assignment held by `dbDraft`. -/
def draftA : Assignment := mkDraft 0 "PO-SIB-20260101-001" 1 2 "1212121" ["2", "5"] none

/-- `draftA` after a successful submit at time 77. -/
def submittedA : Assignment :=
  { draftA with status := .PENDING_PD_APPROVAL, submitted_at := some 77 }

/-- Witness for C6 on `dbDraft`: a non-creator (id 9) is refused, the
creator (id 1) succeeds, and the creator's second submit is refused. -/
theorem C6_submit_state_machine_witness :
    submit_for_approval dbDraft 0 9 77 =
      .error (.forbidden "Only creator can submit assignment") ∧
    submit_for_approval dbDraft 0 1 77 =
      .ok (setAssignment dbDraft submittedA, submittedA) ∧
    submit_for_approval (setAssignment dbDraft submittedA) 0 1 88 =
      .error (.invalidState "Cannot submit assignment in PENDING_PD_APPROVAL status") := by
  have h9 := C6_submit_state_machine dbDraft 0 9 77 draftA (by decide) rfl
  have h1 := C6_submit_state_machine dbDraft 0 1 77 draftA (by decide) rfl
  exact ⟨h9.1 (by decide), (h1.2 rfl).1, (h1.2 rfl).2 88⟩

/-- A store holding one assignment pending level-1 approval. -/
def pendA : Assignment :=
  { draftA with status := .PENDING_PD_APPROVAL, submitted_at := some 50 }

/-- A store with `pendA` and the standard identities. -/
def dbPend : DB := { users := users4, assignments := [pendA], nextPk := 1 }

/-- Claim C4: on an assignment pending level-1 or level-2 approval, reject
by a PD or Admin with a non-empty reason succeeds — status REJECTED, the
rejector's id, the rejection timestamp and the verbatim reason recorded —
while reject with an empty reason fails with the validation error raised by
`AssignmentReject`'s `min_length=1` constraint. -/
theorem C4_reject_requires_reason (db : DB) (aid rid now : Nat) (reason : String)
    (a : Assignment) (u : InternalUser)
    (ha : get_assignment_by_id db aid = some a)
    (hs : a.status = .PENDING_PD_APPROVAL ∨ a.status = .PENDING_ADMIN_APPROVAL)
    (hu : findUser db rid = some u) (hrole : u.role = .PD ∨ u.role = .ADMIN)
    (hr1 : 1 ≤ reason.length) (hr2 : reason.length ≤ 5000) :
    rejectEndpoint db aid rid reason now =
      .ok (setAssignment db
            { a with
              status := .REJECTED
              rejected_by_id := some rid
              rejected_at := some now
              rejection_reason := some reason },
           { a with
             status := .REJECTED
             rejected_by_id := some rid
             rejected_at := some now
             rejection_reason := some reason }) ∧
    rejectEndpoint db aid rid "" now =
      .error (.validation "rejection_reason must not be empty") := by
  constructor
  · have hval : validateReject reason = .ok () := by
      unfold validateReject
      rw [if_neg (by omega), if_neg (by omega)]
    have hok : (match findUser db rid with
        | some u => u.role == UserRole.PD || u.role == UserRole.ADMIN
        | none => false) = true := by
      rw [hu]
      rcases hrole with h | h <;> simp [h]
    simp only [rejectEndpoint, hval, reject_assignment, ha]
    rw [if_neg (fun hc => hc hs)]
    simp only [hok, Bool.not_true]
    rw [if_neg (by simp)]
  · simp [rejectEndpoint, validateReject]

/-- Witness for C4 on `dbPend`: PD (id 3) rejects with a reason, and the
empty reason is refused. -/
theorem C4_reject_requires_reason_witness :
    rejectEndpoint dbPend 0 3 "missing docs" 77 =
      .ok (setAssignment dbPend
            { pendA with
              status := .REJECTED
              rejected_by_id := some 3
              rejected_at := some 77
              rejection_reason := some "missing docs" },
           { pendA with
             status := .REJECTED
             rejected_by_id := some 3
             rejected_at := some 77
             rejection_reason := some "missing docs" }) ∧
    rejectEndpoint dbPend 0 3 "" 77 =
      .error (.validation "rejection_reason must not be empty") :=
  C4_reject_requires_reason dbPend 0 3 77 "missing docs" pendA pdU
    (by decide) (Or.inl rfl) (by decide) (Or.inl rfl) (by decide) (by decide)

/-! ## Approval-evidence preservation (for the two-level topology claim) -/

theorem okEvidence_of_status {a : Assignment} (h1 : a.status ≠ .APPROVED)
    (h2 : a.status ≠ .PENDING_ADMIN_APPROVAL) : okEvidence a :=
  ⟨fun hs => absurd hs h1, fun hs => absurd hs h2⟩

theorem mem_setAssignment {db : DB} {a' x : Assignment}
    (h : x ∈ (setAssignment db a').assignments) : x = a' ∨ x ∈ db.assignments := by
  simp only [setAssignment] at h
  obtain ⟨b, hb, hbx⟩ := List.mem_map.mp h
  by_cases hbeq : (b.pk == a'.pk) = true
  · rw [if_pos hbeq] at hbx
    exact Or.inl hbx.symm
  · rw [if_neg hbeq] at hbx
    exact Or.inr (hbx ▸ hb)

theorem commitInserts_ok {db : DB} {pending : List Assignment} {db' : DB}
    (h : commitInserts db pending = .ok db') :
    db'.assignments = db.assignments ++ pending := by
  unfold commitInserts at h
  split at h
  · injection h with h1
    subst h1
    rfl
  · simp at h

theorem applyUpdates_ok_status {db : DB} {a : Assignment} {u : AssignmentUpdate}
    {a' : Assignment} (h : applyUpdates db a u = .ok a') : a'.status = a.status := by
  obtain ⟨ols, osbc, onotes⟩ := u
  cases ols <;> cases osbc <;> cases onotes <;>
    simp only [applyUpdates] at h <;>
    first
      | (injection h with h1; subst h1; rfl)
      | (split at h
         · simp at h
         · injection h with h1
           subst h1
           rfl)

theorem evidence_bulk {db : DB} {b : BulkAssignmentCreate} {pm : Nat} {d : String}
    {db' : DB} (h : approvalEvidence db)
    (hx : bulkCreateEndpoint db b pm d = .ok db') : approvalEvidence db' := by
  simp only [bulkCreateEndpoint] at hx
  split at hx
  · simp at hx
  · simp only [bulk_create_assignments] at hx
    split at hx
    · simp at hx
    · split at hx
      · simp at hx
      · split at hx
        · simp at hx
        · rename_i dbc hcommit
          injection hx with h1
          subst h1
          intro x hxmem
          have hmem : x ∈ dbc.assignments := hxmem
          rw [commitInserts_ok hcommit] at hmem
          rcases List.mem_append.mp hmem with hold | hnew
          · exact h x hold
          · obtain ⟨p, _, hp⟩ := List.mem_map.mp hnew
            subst hp
            exact okEvidence_of_status (fun hc => nomatch hc) (fun hc => nomatch hc)

theorem evidence_createSingle {db : DB} {c : AssignmentCreate} {pm : Nat} {d : String}
    {db' : DB} (h : approvalEvidence db)
    (hx : (createEndpoint db c pm d).map Prod.fst = .ok db') : approvalEvidence db' := by
  cases hce : createEndpoint db c pm d with
  | error e => rw [hce] at hx; simp [Except.map] at hx
  | ok p =>
    rw [hce] at hx
    simp only [Except.map] at hx
    injection hx with h1
    subst h1
    simp only [createEndpoint] at hce
    split at hce
    · simp at hce
    · simp only [create_assignment] at hce
      split at hce
      · simp at hce
      · split at hce
        · simp at hce
        · split at hce
          · simp at hce
          · rename_i dbc hcommit
            injection hce with h1
            intro x hxmem
            have hp1 : p.1 = { dbc with nextPk := db.nextPk + 1 } := by rw [← h1]
            rw [hp1] at hxmem
            have hmem : x ∈ dbc.assignments := hxmem
            rw [commitInserts_ok hcommit] at hmem
            rcases List.mem_append.mp hmem with hold | hnew
            · exact h x hold
            · rcases List.mem_singleton.mp hnew with rfl
              exact okEvidence_of_status (fun hc => nomatch hc) (fun hc => nomatch hc)

theorem evidence_update {db : DB} {aid : Nat} {u : AssignmentUpdate} {uid : Nat}
    {db' : DB} (h : approvalEvidence db)
    (hx : (updateEndpoint db aid u uid).map Prod.fst = .ok db') : approvalEvidence db' := by
  cases hue : updateEndpoint db aid u uid with
  | error e => rw [hue] at hx; simp [Except.map] at hx
  | ok p =>
    rw [hue] at hx
    simp only [Except.map] at hx
    injection hx with h1
    subst h1
    simp only [updateEndpoint] at hue
    split at hue
    · simp at hue
    · simp only [update_assignment] at hue
      split at hue
      · simp at hue
      · rename_i a hfind
        split at hue
        · simp at hue
        · split at hue
          · simp at hue
          · split at hue
            · simp at hue
            · rename_i a' happly
              rename_i hdraft _ _
              injection hue with h1
              intro x hxmem
              have hp1 : p.1 = setAssignment db a' := by rw [← h1]
              rw [hp1] at hxmem
              rcases mem_setAssignment hxmem with rfl | hold
              · have hst : x.status = a.status := applyUpdates_ok_status happly
                have hd : a.status = .DRAFT := by
                  by_contra hc
                  exact hdraft hc
                exact okEvidence_of_status (by rw [hst, hd]; decide)
                  (by rw [hst, hd]; decide)
              · exact h x hold

theorem evidence_submit {db : DB} {aid uid now : Nat} {db' : DB}
    (h : approvalEvidence db)
    (hx : (submit_for_approval db aid uid now).map Prod.fst = .ok db') :
    approvalEvidence db' := by
  cases hs : submit_for_approval db aid uid now with
  | error e => rw [hs] at hx; simp [Except.map] at hx
  | ok p =>
    rw [hs] at hx
    simp only [Except.map] at hx
    injection hx with h1
    subst h1
    simp only [submit_for_approval] at hs
    split at hs
    · simp at hs
    · split at hs
      · simp at hs
      · split at hs
        · simp at hs
        · injection hs with h1
          intro x hxmem
          rw [← h1] at hxmem
          rcases mem_setAssignment hxmem with rfl | hold
          · exact okEvidence_of_status (fun hc => nomatch hc) (fun hc => nomatch hc)
          · exact h x hold

theorem evidence_approve1 {db : DB} {aid pdId : Nat} {rem : Option String} {now : Nat}
    {db' : DB} (h : approvalEvidence db)
    (hx : (approve_level1 db aid pdId rem now).map Prod.fst = .ok db') :
    approvalEvidence db' := by
  cases hs : approve_level1 db aid pdId rem now with
  | error e => rw [hs] at hx; simp [Except.map] at hx
  | ok p =>
    rw [hs] at hx
    simp only [Except.map] at hx
    injection hx with h1
    subst h1
    simp only [approve_level1] at hs
    split at hs
    · simp at hs
    · split at hs
      · simp at hs
      · split at hs
        · simp at hs
        · injection hs with h1
          intro x hxmem
          rw [← h1] at hxmem
          rcases mem_setAssignment hxmem with rfl | hold
          · exact ⟨(fun hst => nomatch hst), fun _ => rfl⟩
          · exact h x hold

theorem evidence_approve2 {db : DB} {aid adminId : Nat} {rem : Option String} {now : Nat}
    {db' : DB} (h : approvalEvidence db)
    (hx : (approve_level2 db aid adminId rem now).map Prod.fst = .ok db') :
    approvalEvidence db' := by
  cases hs : approve_level2 db aid adminId rem now with
  | error e => rw [hs] at hx; simp [Except.map] at hx
  | ok p =>
    rw [hs] at hx
    simp only [Except.map] at hx
    injection hx with h1
    subst h1
    simp only [approve_level2] at hs
    split at hs
    · simp at hs
    · rename_i a hfind
      split at hs
      · simp at hs
      · rename_i hpending
        split at hs
        · simp at hs
        · injection hs with h1
          intro x hxmem
          rw [← h1] at hxmem
          rcases mem_setAssignment hxmem with rfl | hold
          · have hmem : a ∈ db.assignments := List.mem_of_find?_eq_some hfind
            have hst : a.status = .PENDING_ADMIN_APPROVAL := by
              by_contra hc
              exact hpending hc
            have hpd : a.pd_approved_by_id.isSome := (h a hmem).2 hst
            exact ⟨fun _ => ⟨hpd, rfl⟩, fun hst' => nomatch hst'⟩
          · exact h x hold

theorem evidence_reject {db : DB} {aid rid : Nat} {reason : String} {now : Nat}
    {db' : DB} (h : approvalEvidence db)
    (hx : (rejectEndpoint db aid rid reason now).map Prod.fst = .ok db') :
    approvalEvidence db' := by
  cases hs : rejectEndpoint db aid rid reason now with
  | error e => rw [hs] at hx; simp [Except.map] at hx
  | ok p =>
    rw [hs] at hx
    simp only [Except.map] at hx
    injection hx with h1
    subst h1
    simp only [rejectEndpoint] at hs
    split at hs
    · simp at hs
    · simp only [reject_assignment] at hs
      split at hs
      · simp at hs
      · split at hs
        · simp at hs
        · split at hs
          · simp at hs
          · injection hs with h1
            intro x hxmem
            rw [← h1] at hxmem
            rcases mem_setAssignment hxmem with rfl | hold
            · exact okEvidence_of_status (fun hc => nomatch hc) (fun hc => nomatch hc)
            · exact h x hold

theorem evidence_applyOp (db : DB) (op : Op) (h : approvalEvidence db) :
    approvalEvidence (applyOp db op) := by
  cases hexec : execOp db op with
  | error e => simpa [applyOp, hexec] using h
  | ok db' =>
    simp only [applyOp, hexec]
    cases op with
    | bulkCreate b pm d => exact evidence_bulk h hexec
    | createSingle c pm d => exact evidence_createSingle h hexec
    | update aid u uid => exact evidence_update h hexec
    | submit aid uid now => exact evidence_submit h hexec
    | approveL1 aid pdId rem now => exact evidence_approve1 h hexec
    | approveL2 aid adminId rem now => exact evidence_approve2 h hexec
    | reject aid rid reason now => exact evidence_reject h hexec

theorem evidence_foldl (ops : List Op) :
    ∀ db : DB, approvalEvidence db → approvalEvidence (ops.foldl applyOp db) := by
  induction ops with
  | nil => exact fun db h => h
  | cons op ops ih => exact fun db h => ih (applyOp db op) (evidence_applyOp db op h)

/-- Claim C5: under the two-level topology an assignment only reaches
APPROVED through a sequential level-1 then level-2 approval: (i) in every
state reachable from an assignment-free store, an APPROVED assignment
carries both approvers and a PENDING_ADMIN_APPROVAL one carries the level-1
approver; (ii) a successful `approve_level1` starts from
PENDING_PD_APPROVAL and yields PENDING_ADMIN_APPROVAL; (iii) a successful
`approve_level2` starts from PENDING_ADMIN_APPROVAL — the status only
`approve_level1` produces — and yields APPROVED; (iv) attempting level-2
approval while the status is still PENDING_PD_APPROVAL fails with the
invalid-state error and leaves the store unchanged. -/
theorem C5_two_level_approval_order :
    (∀ (users : List InternalUser) (ops : List Op),
      approvalEvidence (runOps users ops)) ∧
    (∀ (db : DB) (aid x : Nat) (rem : Option String) (now : Nat) (r : DB × Assignment),
      approve_level1 db aid x rem now = .ok r →
      ∃ a, get_assignment_by_id db aid = some a ∧
        a.status = .PENDING_PD_APPROVAL ∧ r.2.status = .PENDING_ADMIN_APPROVAL) ∧
    (∀ (db : DB) (aid x : Nat) (rem : Option String) (now : Nat) (r : DB × Assignment),
      approve_level2 db aid x rem now = .ok r →
      ∃ a, get_assignment_by_id db aid = some a ∧
        a.status = .PENDING_ADMIN_APPROVAL ∧ r.2.status = .APPROVED) ∧
    (∀ (db : DB) (aid x : Nat) (rem : Option String) (now : Nat) (a : Assignment),
      get_assignment_by_id db aid = some a → a.status = .PENDING_PD_APPROVAL →
      approve_level2 db aid x rem now =
        .error (.invalidState
          "Cannot approve assignment in PENDING_PD_APPROVAL status. Must be PENDING_ADMIN_APPROVAL.") ∧
      applyOp db (.approveL2 aid x rem now) = db) := by
  refine ⟨?_, ?_, ?_, ?_⟩
  · intro users ops
    exact evidence_foldl ops (initDB users) (fun a ha => nomatch ha)
  · intro db aid x rem now r hx
    simp only [approve_level1] at hx
    split at hx
    · simp at hx
    · rename_i a hfind
      split at hx
      · simp at hx
      · rename_i hstat
        split at hx
        · simp at hx
        · injection hx with h1
          refine ⟨a, hfind, of_not_not hstat, ?_⟩
          rw [← h1]
  · intro db aid x rem now r hx
    simp only [approve_level2] at hx
    split at hx
    · simp at hx
    · rename_i a hfind
      split at hx
      · simp at hx
      · rename_i hstat
        split at hx
        · simp at hx
        · injection hx with h1
          refine ⟨a, hfind, of_not_not hstat, ?_⟩
          rw [← h1]
  · intro db aid x rem now a hfind hstat
    have herr : approve_level2 db aid x rem now =
        .error (.invalidState
          "Cannot approve assignment in PENDING_PD_APPROVAL status. Must be PENDING_ADMIN_APPROVAL.") := by
      simp only [approve_level2, hfind]
      rw [hstat]
      rw [if_pos (by decide :
        AssignmentStatus.PENDING_PD_APPROVAL ≠ AssignmentStatus.PENDING_ADMIN_APPROVAL)]
      rfl
    exact ⟨herr, by simp [applyOp, execOp, herr, Except.map]⟩

/-- Witness for C5: a reachable store satisfies the evidence invariant, and
on `dbPend` (status PENDING_PD_APPROVAL) a level-2 attempt by the Admin
(id 4) fails and changes nothing. -/
theorem C5_two_level_approval_order_witness :
    approvalEvidence (runOps users4 [.submit 0 1 77]) ∧
    approve_level2 dbPend 0 4 none 9 =
      .error (.invalidState
        "Cannot approve assignment in PENDING_PD_APPROVAL status. Must be PENDING_ADMIN_APPROVAL.") ∧
    applyOp dbPend (.approveL2 0 4 none 9) = dbPend := by
  have h := C5_two_level_approval_order
  have h4 := h.2.2.2 dbPend 0 4 none 9 pendA (by decide) rfl
  exact ⟨h.1 users4 [.submit 0 1 77], h4.1, h4.2⟩

/-! ## Conflict-check lemmas -/

theorem findConflict_none {ex : List Assignment} {lines : List String}
    (h : findConflict ex lines = none) :
    ∀ a ∈ ex, lines.filter (fun l => a.external_po_line_numbers.contains l) = [] := by
  induction ex with
  | nil => intro a ha; nomatch ha
  | cons b ex ih =>
    simp only [findConflict] at h
    split at h
    · rename_i hempty
      intro a ha
      rcases List.mem_cons.mp ha with rfl | hmem
      · exact List.isEmpty_iff.mp hempty
      · exact ih h a hmem
    · simp at h

theorem findConflict_some {ex : List Assignment} {lines ov : List String}
    {eid : String} (h : findConflict ex lines = some (ov, eid)) :
    ∃ a ∈ ex, eid = a.internal_po_id ∧
      ov = lines.filter (fun l => a.external_po_line_numbers.contains l) ∧ ov ≠ [] := by
  induction ex with
  | nil => simp [findConflict] at h
  | cons b ex ih =>
    simp only [findConflict] at h
    split at h
    · obtain ⟨a, ha, h1, h2, h3⟩ := ih h
      exact ⟨a, List.mem_cons_of_mem b ha, h1, h2, h3⟩
    · rename_i hne
      injection h with h1
      cases h1
      refine ⟨b, List.mem_cons_self b ex, rfl, rfl, ?_⟩
      intro hc
      exact hne (by rw [hc]; rfl)

theorem check_error_of_conflict {asg : List Assignment}
    {grouped : List (String × List String)} {po : String} {lines : List String}
    {a : Assignment} {l : String}
    (hg : (po, lines) ∈ grouped) (ha : a ∈ asg) (hpo : a.external_po_number = po)
    (hnt : nonTerminalStatus a.status = true) (hl : l ∈ lines)
    (hla : l ∈ a.external_po_line_numbers) :
    ∃ e, check_lines_not_assigned asg grouped = .error e := by
  induction grouped with
  | nil => nomatch hg
  | cons g rest ih =>
    obtain ⟨po', lines'⟩ := g
    simp only [check_lines_not_assigned]
    cases hfc : findConflict
        (asg.filter fun x => x.external_po_number == po' && nonTerminalStatus x.status)
        lines' with
    | some p =>
      obtain ⟨ov, eid⟩ := p
      exact ⟨.conflict po' ov eid, rfl⟩
    | none =>
      rcases List.mem_cons.mp hg with heq | hmem
      · exfalso
        injection heq with he1 he2
        subst he1
        subst he2
        have hain : a ∈ asg.filter
            (fun x => x.external_po_number == po && nonTerminalStatus x.status) :=
          List.mem_filter.mpr ⟨ha, by simp [hpo, hnt]⟩
        have hnil := findConflict_none hfc a hain
        have hlin : l ∈ lines.filter (fun l => a.external_po_line_numbers.contains l) :=
          List.mem_filter.mpr ⟨hl, by simpa using hla⟩
        rw [hnil] at hlin
        nomatch hlin
      · exact ih hmem

theorem check_error_shape {asg : List Assignment}
    {grouped : List (String × List String)} {e : ServiceError}
    (h : check_lines_not_assigned asg grouped = .error e) :
    ∃ po lines ov eid a, e = .conflict po ov eid ∧ (po, lines) ∈ grouped ∧
      a ∈ asg ∧ a.external_po_number = po ∧ nonTerminalStatus a.status = true ∧
      eid = a.internal_po_id ∧
      ov = lines.filter (fun l => a.external_po_line_numbers.contains l) ∧
      ov ≠ [] := by
  induction grouped with
  | nil => simp [check_lines_not_assigned] at h
  | cons g rest ih =>
    obtain ⟨po', lines'⟩ := g
    simp only [check_lines_not_assigned] at h
    split at h
    · rename_i ov eid hfc
      injection h with h1
      obtain ⟨a, hafil, h1', h2, h3⟩ := findConflict_some hfc
      have hmem := List.mem_filter.mp hafil
      have hand := hmem.2
      rw [Bool.and_eq_true] at hand
      have hpo : a.external_po_number = po' := by simpa using hand.1
      exact ⟨po', lines', ov, eid, a, h1.symm, List.mem_cons_self _ _, hmem.1,
        hpo, hand.2, h1', h2, h3⟩
    · obtain ⟨po, lines, ov, eid, a, k1, k2, k3, k4, k5, k6, k7, k8⟩ := ih h
      exact ⟨po, lines, ov, eid, a, k1, List.mem_cons_of_mem _ k2, k3, k4, k5, k6, k7, k8⟩

theorem check_ok_of_disjoint {asg : List Assignment}
    {grouped : List (String × List String)}
    (h : ∀ po lines, (po, lines) ∈ grouped → ∀ a ∈ asg, a.external_po_number = po →
        nonTerminalStatus a.status = true → ∀ l ∈ lines, l ∉ a.external_po_line_numbers) :
    check_lines_not_assigned asg grouped = .ok () := by
  induction grouped with
  | nil => rfl
  | cons g rest ih =>
    obtain ⟨po', lines'⟩ := g
    simp only [check_lines_not_assigned]
    cases hfc : findConflict
        (asg.filter fun x => x.external_po_number == po' && nonTerminalStatus x.status)
        lines' with
    | some p =>
      exfalso
      obtain ⟨ov, eid⟩ := p
      obtain ⟨a, hafil, h1, h2, h3⟩ := findConflict_some hfc
      have hmem := List.mem_filter.mp hafil
      have hand := hmem.2
      rw [Bool.and_eq_true] at hand
      have hpo : a.external_po_number = po' := by simpa using hand.1
      obtain ⟨l, hlov⟩ := List.exists_mem_of_ne_nil ov h3
      rw [h2] at hlov
      have hfl := List.mem_filter.mp hlov
      have hlal : l ∈ a.external_po_line_numbers := by
        simpa using hfl.2
      exact h po' lines' (List.mem_cons_self _ _) a hmem.1 hpo hand.2 l hfl.1 hlal
    | none =>
      exact ih (fun po lines hg => h po lines (List.mem_cons_of_mem _ hg))

/-- Claim C7: (i) if some existing non-terminal assignment holds a line that
a bulk batch selects again, `bulk_create_assignments` fails with a
`ConflictError` naming a PO number, a non-empty overlap and the internal id
of a genuinely conflicting non-terminal assignment, and the store is
unchanged — nothing is persisted; (ii) a batch whose groups are disjoint
from every non-terminal assignment's line set passes the conflict check
(REJECTED and CANCELLED assignments are not in the blocking status list, so
they impose no constraint). -/
theorem C7_conflict_detection :
    (∀ (db : DB) (b : BulkAssignmentCreate) (pm : Nat) (d : String)
       (a : Assignment) (L : String) (sbc : InternalUser),
      findSbc db b.assigned_to_sbc_id = some sbc →
      a ∈ db.assignments → nonTerminalStatus a.status = true →
      (a.external_po_number, L) ∈ b.po_lines → L ∈ a.external_po_line_numbers →
      (∃ po ov eid a', bulk_create_assignments db b pm d = .error (.conflict po ov eid) ∧
        a' ∈ db.assignments ∧ nonTerminalStatus a'.status = true ∧
        a'.external_po_number = po ∧ eid = a'.internal_po_id ∧ ov ≠ [] ∧
        (∀ l ∈ ov, l ∈ a'.external_po_line_numbers ∧ (po, l) ∈ b.po_lines)) ∧
      applyOp db (.bulkCreate b pm d) = db) ∧
    (∀ (asg : List Assignment) (grouped : List (String × List String)),
      (∀ po lines, (po, lines) ∈ grouped → ∀ a ∈ asg, a.external_po_number = po →
          nonTerminalStatus a.status = true → ∀ l ∈ lines, l ∉ a.external_po_line_numbers) →
      check_lines_not_assigned asg grouped = .ok ()) := by
  constructor
  · intro db b pm d a L sbc hsbc ha hnt hpair hla
    obtain ⟨ls, hgmem, hLls⟩ := group_covers hpair
    obtain ⟨e, he⟩ := check_error_of_conflict hgmem ha rfl hnt hLls hla
    obtain ⟨po, lines, ov, eid, a', k1, k2, k3, k4, k5, k6, k7, k8⟩ := check_error_shape he
    have hlines : lines = (b.po_lines.filter (fun p => p.1 = po)).map Prod.snd :=
      group_entry_char k2
    have hserr : bulk_create_assignments db b pm d = .error e := by
      simp only [bulk_create_assignments, hsbc, he]
    constructor
    · subst k1
      refine ⟨po, ov, eid, a', hserr, k3, k5, k4, k6, k8, ?_⟩
      intro l hlov
      rw [k7] at hlov
      have hfl := List.mem_filter.mp hlov
      refine ⟨by simpa using hfl.2, ?_⟩
      rw [hlines] at hfl
      obtain ⟨⟨p1, p2⟩, hp, hps⟩ := List.mem_map.mp hfl.1
      have hp1 : p1 = po := by simpa using (List.mem_filter.mp hp).2
      cases hps
      rw [← hp1]
      exact (List.mem_filter.mp hp).1
    · have hexec : execOp db (.bulkCreate b pm d) = .error e ∨
          ∃ e', execOp db (.bulkCreate b pm d) = .error e' := by
        right
        simp only [execOp, bulkCreateEndpoint]
        cases hv : validateBulkCreate b with
        | error e2 => exact ⟨e2, rfl⟩
        | ok u =>
          cases u
          exact ⟨e, hserr⟩
      rcases hexec with hx | ⟨e', hx⟩ <;> simp [applyOp, hx]
  · exact fun asg grouped h => check_ok_of_disjoint h

/-- A bulk request re-selecting line 2 of PO 1212121, already held by
`dbDraft`'s DRAFT assignment. -/
def bulkConflict : BulkAssignmentCreate :=
  { po_lines := [("1212121", "2")], assigned_to_sbc_id := 2 }

/-- Witness for C7 on `dbDraft`: the overlapping batch is refused with the
store unchanged, and a disjoint batch passes the check. -/
theorem C7_conflict_detection_witness :
    ((∃ po ov eid a',
        bulk_create_assignments dbDraft bulkConflict 1 "20260102" =
          .error (.conflict po ov eid) ∧
        a' ∈ dbDraft.assignments ∧ nonTerminalStatus a'.status = true ∧
        a'.external_po_number = po ∧ eid = a'.internal_po_id ∧ ov ≠ [] ∧
        (∀ l ∈ ov, l ∈ a'.external_po_line_numbers ∧ (po, l) ∈ bulkConflict.po_lines)) ∧
      applyOp dbDraft (.bulkCreate bulkConflict 1 "20260102") = dbDraft) ∧
    check_lines_not_assigned dbDraft.assignments [("1212121", ["9"])] = .ok () :=
  ⟨C7_conflict_detection.1 dbDraft bulkConflict 1 "20260102" draftA "2" sbcU
      (by decide) (by decide) rfl (by decide) (by decide),
   C7_conflict_detection.2 dbDraft.assignments [("1212121", ["9"])] (by
      intro po lines hg a ha hpo hnt l hl
      have h1 := List.mem_singleton.mp hg
      injection h1 with e1 e2
      subst e1
      subst e2
      have h2 := List.mem_singleton.mp ha
      subst h2
      have h3 := List.mem_singleton.mp hl
      subst h3
      decide)⟩

/-! ## Id-generation lemmas: digits, lexicographic order, fold maximum -/

theorem digitChar_toNat {d : Nat} (h : d ≤ 9) : (digitChar d).toNat = 48 + d := by
  interval_cases d <;> decide

theorem digitChar_isDigit {d : Nat} (h : d ≤ 9) : isDigit (digitChar d) = true := by
  interval_cases d <;> decide

theorem digitChar_ne_dash {d : Nat} (h : d ≤ 9) :
    (decide (digitChar d ≠ '-')) = true := by
  interval_cases d <;> decide

theorem pad3_data {k : Nat} (h : k < 1000) :
    (pad3 k).data = [digitChar (k / 100), digitChar (k / 10 % 10), digitChar (k % 10)] := by
  unfold pad3
  rw [if_pos h]

theorem listCharLt_append (p x y : List Char) :
    listCharLt (p ++ x) (p ++ y) = listCharLt x y := by
  induction p with
  | nil => rfl
  | cons a p ih =>
    simp only [List.cons_append, listCharLt]
    rw [if_neg (Nat.lt_irrefl a.toNat), if_neg (Nat.lt_irrefl a.toNat)]
    exact ih

theorem pad3_lt_iff {a b : Nat} (ha : a ≤ 999) (hb : b ≤ 999) :
    listCharLt (pad3 a).data (pad3 b).data = decide (a < b) := by
  rw [pad3_data (by omega), pad3_data (by omega)]
  simp only [listCharLt]
  rw [digitChar_toNat (by omega : a / 100 ≤ 9), digitChar_toNat (by omega : b / 100 ≤ 9),
    digitChar_toNat (by omega : a / 10 % 10 ≤ 9), digitChar_toNat (by omega : b / 10 % 10 ≤ 9),
    digitChar_toNat (by omega : a % 10 ≤ 9), digitChar_toNat (by omega : b % 10 ≤ 9)]
  by_cases h1 : 48 + a / 100 < 48 + b / 100
  · rw [if_pos h1]
    have : a < b := by omega
    simp [this]
  · rw [if_neg h1]
    by_cases h2 : 48 + b / 100 < 48 + a / 100
    · rw [if_pos h2]
      have : ¬ a < b := by omega
      simp [this]
    · rw [if_neg h2]
      by_cases h3 : 48 + a / 10 % 10 < 48 + b / 10 % 10
      · rw [if_pos h3]
        have : a < b := by omega
        simp [this]
      · rw [if_neg h3]
        by_cases h4 : 48 + b / 10 % 10 < 48 + a / 10 % 10
        · rw [if_pos h4]
          have : ¬ a < b := by omega
          simp [this]
        · rw [if_neg h4]
          by_cases h5 : 48 + a % 10 < 48 + b % 10
          · rw [if_pos h5]
            have : a < b := by omega
            simp [this]
          · rw [if_neg h5]
            by_cases h6 : 48 + b % 10 < 48 + a % 10
            · rw [if_pos h6]
              have : ¬ a < b := by omega
              simp [this]
            · rw [if_neg h6]
              have : ¬ a < b := by omega
              simp [this]

theorem strLt_mkId {d : String} {a b : Nat} (ha : a ≤ 999) (hb : b ≤ 999) :
    strLt (mkId d a) (mkId d b) = decide (a < b) := by
  show listCharLt (("PO-SIB-" ++ d ++ "-").data ++ (pad3 a).data)
    (("PO-SIB-" ++ d ++ "-").data ++ (pad3 b).data) = decide (a < b)
  rw [listCharLt_append]
  exact pad3_lt_iff ha hb

theorem takeWhile_append_of_all {α : Type} {p : α → Bool} {l₁ l₂ : List α}
    (h : ∀ a ∈ l₁, p a = true) :
    (l₁ ++ l₂).takeWhile p = l₁ ++ l₂.takeWhile p := by
  induction l₁ with
  | nil => rfl
  | cons a l₁ ih =>
    simp only [List.cons_append, List.takeWhile_cons, h a (List.mem_cons_self a l₁),
      if_true]
    rw [ih (fun x hx => h x (List.mem_cons_of_mem a hx))]

theorem lastDashSuffix_mkId_of_nodash {d : String} {k : Nat}
    (hnod : ∀ c ∈ (pad3 k).data, (decide (c ≠ '-')) = true) :
    lastDashSuffix (mkId d k) = pad3 k := by
  show String.mk (((("PO-SIB-" ++ d).data ++ ['-'] ++ (pad3 k).data).reverse.takeWhile
    (fun c => decide (c ≠ '-'))).reverse) = pad3 k
  rw [List.reverse_append, List.reverse_append]
  have hall : ∀ c ∈ (pad3 k).data.reverse, (decide (c ≠ '-')) = true := by
    intro c hc
    rw [List.mem_reverse] at hc
    exact hnod c hc
  rw [takeWhile_append_of_all hall]
  show String.mk (((pad3 k).data.reverse ++
    (('-' :: ("PO-SIB-" ++ d).data.reverse).takeWhile (fun c => decide (c ≠ '-')))).reverse) =
    pad3 k
  rw [List.takeWhile_cons_of_neg (by decide)]
  rw [List.append_nil, List.reverse_reverse]

theorem lastDashSuffix_mkId {d : String} {k : Nat} (h : k ≤ 999) :
    lastDashSuffix (mkId d k) = pad3 k := by
  apply lastDashSuffix_mkId_of_nodash
  intro c hc
  rw [pad3_data (by omega)] at hc
  simp only [List.mem_cons, List.not_mem_nil, or_false] at hc
  rcases hc with rfl | rfl | rfl
  · exact digitChar_ne_dash (by omega)
  · exact digitChar_ne_dash (by omega)
  · exact digitChar_ne_dash (by omega)

theorem strToNatM_pad3 {k : Nat} (h : k ≤ 999) : strToNatM (pad3 k) = some k := by
  unfold strToNatM
  rw [if_pos ?cond]
  case cond =>
    rw [pad3_data (by omega)]
    simp only [List.isEmpty_cons, Bool.not_false, Bool.true_and, List.all_cons, List.all_nil]
    rw [digitChar_isDigit (by omega), digitChar_isDigit (by omega),
      digitChar_isDigit (by omega)]
    rfl
  rw [pad3_data (by omega)]
  unfold digitsToNat
  simp only [List.foldl_cons, List.foldl_nil]
  rw [digitChar_toNat (by omega : k / 100 ≤ 9), digitChar_toNat (by omega : k / 10 % 10 ≤ 9),
    digitChar_toNat (by omega : k % 10 ≤ 9)]
  congr 1
  omega

theorem listStartsWith_append (l m : List Char) : listStartsWith l (l ++ m) = true := by
  induction l with
  | nil => rfl
  | cons a l ih => simpa [listStartsWith] using ih

theorem strStartsWith_mkId (d : String) (k : Nat) :
    strStartsWith ("PO-SIB-" ++ d ++ "-") (mkId d k) = true := by
  show listStartsWith ("PO-SIB-" ++ d ++ "-").data
    (("PO-SIB-" ++ d ++ "-").data ++ (pad3 k).data) = true
  exact listStartsWith_append _ _

theorem filter_mkId (d : String) (seqs : List Nat) :
    (seqs.map (mkId d)).filter (fun s => strStartsWith ("PO-SIB-" ++ d ++ "-") s) =
      seqs.map (mkId d) := by
  rw [List.filter_eq_self]
  intro s hs
  obtain ⟨k, _, rfl⟩ := List.mem_map.mp hs
  exact strStartsWith_mkId d k

theorem mkId_inj {d : String} {j k : Nat} (hj : j ≤ 999) (hk : k ≤ 999)
    (h : mkId d j = mkId d k) : j = k := by
  have h1 : strToNatM (lastDashSuffix (mkId d j)) = strToNatM (lastDashSuffix (mkId d k)) := by
    rw [h]
  rw [lastDashSuffix_mkId hj, lastDashSuffix_mkId hk, strToNatM_pad3 hj,
    strToNatM_pad3 hk] at h1
  exact Option.some_inj.mp h1

theorem mkId_1000_ne {d : String} {j : Nat} (hj : j ≤ 999) :
    mkId d 1000 ≠ mkId d j := by
  intro h
  have h1 : strToNatM (lastDashSuffix (mkId d 1000)) =
      strToNatM (lastDashSuffix (mkId d j)) := by
    rw [h]
  rw [lastDashSuffix_mkId_of_nodash (by decide), lastDashSuffix_mkId hj,
    strToNatM_pad3 hj, (by decide : strToNatM (pad3 1000) = some 1000)] at h1
  have := Option.some_inj.mp h1
  omega

theorem foldl_max_ge_init (seqs : List Nat) (m : Nat) : m ≤ seqs.foldl max m := by
  induction seqs generalizing m with
  | nil => exact Nat.le_refl m
  | cons a seqs ih => exact Nat.le_trans (Nat.le_max_left m a) (ih (max m a))

theorem foldl_max_ge_mem (seqs : List Nat) (m : Nat) :
    ∀ k ∈ seqs, k ≤ seqs.foldl max m := by
  induction seqs generalizing m with
  | nil => intro k hk; nomatch hk
  | cons a seqs ih =>
    intro k hk
    rcases List.mem_cons.mp hk with rfl | hmem
    · calc k ≤ max m k := Nat.le_max_right m k
        _ ≤ seqs.foldl max (max m k) := foldl_max_ge_init seqs (max m k)
    · exact ih (max m a) k hmem

theorem foldl_max_le (seqs : List Nat) (m c : Nat) (hm : m ≤ c)
    (hall : ∀ k ∈ seqs, k ≤ c) : seqs.foldl max m ≤ c := by
  induction seqs generalizing m with
  | nil => exact hm
  | cons a seqs ih =>
    exact ih (max m a) (Nat.max_le.mpr ⟨hm, hall a (List.mem_cons_self a seqs)⟩)
      (fun k hk => hall k (List.mem_cons_of_mem a hk))

theorem fold_max_mkId (d : String) (seqs : List Nat) (m : Nat) (hM : m ≤ 999)
    (hseqs : ∀ k ∈ seqs, 1 ≤ k ∧ k ≤ 999) :
    (seqs.map (mkId d)).foldl (fun mx t => if strLt mx t then t else mx) (mkId d m) =
      mkId d (seqs.foldl max m) := by
  induction seqs generalizing m with
  | nil => rfl
  | cons k seqs ih =>
    obtain ⟨hk1, hk9⟩ := hseqs k (List.mem_cons_self k seqs)
    simp only [List.map_cons, List.foldl_cons]
    have hstep : (if strLt (mkId d m) (mkId d k) then mkId d k else mkId d m) =
        mkId d (max m k) := by
      rw [strLt_mkId hM hk9]
      by_cases h : m < k
      · simp [h, Nat.max_eq_right (Nat.le_of_lt h)]
      · have hle : k ≤ m := Nat.le_of_not_lt h
        simp [h, Nat.max_eq_left hle]
    rw [hstep]
    exact ih (max m k) (Nat.max_le.mpr ⟨hM, hk9⟩)
      (fun k' hk' => hseqs k' (List.mem_cons_of_mem k hk'))

/-- The amended content of C3, store part: over a well-formed store of
today's ids with sequence numbers in 1..999, the code returns the id of the
numeric-maximum sequence plus one, and that id is fresh (at maximum 999 the
generated id carries the four-digit suffix 1000, which no three-digit
suffix equals). -/
theorem generate_internal_id_max (d : String) (seqs : List Nat)
    (hseqs : ∀ k ∈ seqs, 1 ≤ k ∧ k ≤ 999) :
    generate_internal_id (seqs.map (mkId d)) d = mkId d (seqs.foldl max 0 + 1) ∧
    mkId d (seqs.foldl max 0 + 1) ∉ seqs.map (mkId d) := by
  constructor
  · cases seqs with
    | nil => rfl
    | cons k seqs' =>
      obtain ⟨hk1, hk9⟩ := hseqs k (List.mem_cons_self k seqs')
      have hseqs' : ∀ k' ∈ seqs', 1 ≤ k' ∧ k' ≤ 999 :=
        fun k' hk' => hseqs k' (List.mem_cons_of_mem k hk')
      have hM9 : seqs'.foldl max k ≤ 999 :=
        foldl_max_le seqs' k 999 hk9 (fun x hx => (hseqs' x hx).2)
      simp only [generate_internal_id]
      rw [filter_mkId d (k :: seqs')]
      show ("PO-SIB-" ++ d ++ "-") ++
          pad3 ((strToNatM (lastDashSuffix ((List.map (mkId d) seqs').foldl
            (fun m t => if strLt m t then t else m) (mkId d k)))).getD 0 + 1) =
        mkId d ((k :: seqs').foldl max 0 + 1)
      rw [fold_max_mkId d seqs' k hk9 hseqs']
      rw [lastDashSuffix_mkId hM9, strToNatM_pad3 hM9]
      simp only [Option.getD_some]
      rw [List.foldl_cons, Nat.zero_max]
      rfl
  · intro hmem
    obtain ⟨j, hj, hjeq⟩ := List.mem_map.mp hmem
    have hj99 := hseqs j hj
    have hjle : j ≤ seqs.foldl max 0 := foldl_max_ge_mem seqs 0 j hj
    have hM9 : seqs.foldl max 0 ≤ 999 :=
      foldl_max_le seqs 0 999 (by omega) (fun k hk => (hseqs k hk).2)
    by_cases hM : seqs.foldl max 0 ≤ 998
    · have hjM : j = seqs.foldl max 0 + 1 :=
        mkId_inj hj99.2 (by omega) hjeq
      omega
    · have hM1000 : seqs.foldl max 0 + 1 = 1000 := by omega
      rw [hM1000] at hjeq
      exact mkId_1000_ne hj99.2 hjeq.symm

theorem range_map_succ_foldl_max (n : Nat) :
    ((List.range n).map (fun i => i + 1)).foldl max 0 = n := by
  induction n with
  | zero => rfl
  | succ n ih =>
    rw [List.range_succ, List.map_append, List.foldl_append, ih]
    simp [Nat.max_eq_right (Nat.le_succ n)]

/-- The amended content of C3, iteration part: `N ≤ 999` sequential calls
from an empty store produce exactly the ids of sequence numbers 1..N in
order. -/
theorem genIterate_eq (d : String) : ∀ N : Nat, N ≤ 999 →
    genIterate d N = (List.range N).map (fun i => mkId d (i + 1)) := by
  intro N
  induction N with
  | zero => intro _; rfl
  | succ n ih =>
    intro hN
    have hn : n ≤ 999 := by omega
    simp only [genIterate]
    rw [ih hn]
    have hmm : (List.range n).map (fun i => mkId d (i + 1)) =
        ((List.range n).map (fun i => i + 1)).map (mkId d) := by
      rw [List.map_map]
      rfl
    have hseqs : ∀ k ∈ (List.range n).map (fun i => i + 1), 1 ≤ k ∧ k ≤ 999 := by
      intro k hk
      obtain ⟨i, hi, rfl⟩ := List.mem_map.mp hk
      have := List.mem_range.mp hi
      omega
    have h := (generate_internal_id_max d ((List.range n).map (fun i => i + 1)) hseqs).1
    rw [range_map_succ_foldl_max] at h
    rw [hmm, h, ← hmm, List.range_succ, List.map_append]
    rfl

/-- Claim C3 (amended): `generate_internal_id` computes
`PO-SIB-<date>-<seq>` with `seq` one past the sequence of the
lexicographically greatest existing id for the date.  Restricted to stores
whose sequence numbers all lie in 1..999 — the regime the zero-padded
3-digit format supports — this equals one more than the numeric maximum,
the result is not already present, and N sequential calls from an empty
store with N ≤ 999 produce exactly the sequence numbers 001..N in order.  (Past 999 per day the claim fails: see
the counterexample theorem.) -/
theorem C3_lexmax_id_generation :
    (∀ (d : String) (seqs : List Nat), (∀ k ∈ seqs, 1 ≤ k ∧ k ≤ 999) →
      generate_internal_id (seqs.map (mkId d)) d = mkId d (seqs.foldl max 0 + 1) ∧
      mkId d (seqs.foldl max 0 + 1) ∉ seqs.map (mkId d)) ∧
    (∀ (d : String) (N : Nat), N ≤ 999 →
      genIterate d N = (List.range N).map (fun i => mkId d (i + 1))) :=
  ⟨generate_internal_id_max, genIterate_eq⟩

/-- Witness for the amended C3 at date 20260101 with existing sequence
numbers {2, 1} and a three-call iteration. -/
theorem C3_lexmax_id_generation_witness :
    generate_internal_id [mkId "20260101" 2, mkId "20260101" 1] "20260101" =
      mkId "20260101" 3 ∧
    mkId "20260101" 3 ∉ [mkId "20260101" 2, mkId "20260101" 1] ∧
    genIterate "20260101" 3 =
      [mkId "20260101" 1, mkId "20260101" 2, mkId "20260101" 3] := by
  have h := C3_lexmax_id_generation
  have h1 := h.1 "20260101" [2, 1] (by decide)
  refine ⟨h1.1, h1.2, ?_⟩
  rw [h.2 "20260101" 3 (by decide)]
  rfl

end POAssign
